import Mathlib

/-!
Shallow embedding of the laconic SMS contact/group assistant
(`src/crates/server/src/main.rs`, `command_word.rs`) and proofs about its
pending-action confirmation state machine.

Conventions of the embedding:
* The SQLite store is a record of row lists; each `query!` write statement of
  the source becomes a `WriteOp`, and each handler records the transactions it
  commits as `List (List WriteOp)` (a pool-level autocommitted statement is a
  singleton transaction).
* Rust `usize` parsing, decimal formatting, splitting, trimming and
  case-folding are embedded by structurally recursive functions so that every
  definition evaluates inside the kernel.
* SQL `ORDER BY` on a text column is embedded as a sort by the `≤` order on
  `String` (SQLite's BINARY collation is bytewise comparison, which on valid
  UTF-8 coincides with code-point order). `SELECT DISTINCT` on a text column
  without `ORDER BY` is embedded as deduplication followed by that sort:
  SQLite materialises the DISTINCT through a temporary B-tree keyed with
  BINARY collation, so rows are produced in ascending byte order.
* Code that lives in crate modules not present under `src/`
  (`contacts.rs`, `help.rs`, `util.rs`, the SQL schema) is modelled from the
  spec; each such definition carries a `Modelled from the spec:` doc comment.
-/

namespace Laconic

set_option maxRecDepth 8000

/-! ## String primitives (embedding of the Rust string operations used) -/

/-- ASCII whitespace, as recognised by Rust's `split_ascii_whitespace`
(space, tab, line feed, form feed, carriage return). -/
def isAsciiWs (c : Char) : Bool :=
  c = ' ' || c = '\t' || c = '\n' || c = '\r' || c.toNat = 12

/-- Strip leading and trailing whitespace (Rust `str::trim`; Rust uses the
Unicode White_Space class, of which the claims only exercise the ASCII part). -/
def trimChars (cs : List Char) : List Char :=
  ((cs.dropWhile isAsciiWs).reverse.dropWhile isAsciiWs).reverse

def trimStr (s : String) : String := String.mk (trimChars s.data)

/-- Split a character list at every character satisfying `p`, keeping empty
pieces (the semantics of Rust's `str::split`). -/
def splitChars (p : Char → Bool) : List Char → List (List Char)
  | [] => [[]]
  | c :: rest =>
    let r := splitChars p rest
    if p c then [] :: r
    else match r with
      | [] => [[c]]
      | h :: t => (c :: h) :: t

/-- `splitChars` never returns the empty list. -/
theorem splitChars_ne_nil (p : Char → Bool) (cs : List Char) : splitChars p cs ≠ [] := by
  cases cs with
  | nil => simp [splitChars]
  | cons c rest =>
    simp only [splitChars]
    split
    · simp
    · split <;> simp

/-- Rust `str::split` with a multi-character separator, via explicit fuel
(the fuel `cs.length` is enough since each step consumes at least one
character). Used for `split(" (")` in the deferred-contact cleanup. -/
def splitSepFuel (sep : List Char) : Nat → List Char → List (List Char)
  | 0, cs => [cs]
  | fuel + 1, cs =>
    match cs with
    | [] => [[]]
    | c :: rest =>
      if sep.isPrefixOf (c :: rest) then
        [] :: splitSepFuel sep fuel (List.drop (sep.length - 1) rest)
      else
        match splitSepFuel sep fuel rest with
        | [] => [[c]]
        | h :: t => (c :: h) :: t

def rustSplitStr (sep : String) (s : String) : List String :=
  (splitSepFuel sep.data s.data.length s.data).map String.mk

/-- The words of a message body: Rust
`body.trim().split_ascii_whitespace()` (no empty tokens). -/
def wordsOf (body : String) : List String :=
  ((splitChars isAsciiWs (trimChars body.data)).filter (fun w => w ≠ [])).map String.mk

/-- The comma-separated selection tokens of a `confirm` argument:
Rust `selections.split(',').map(str::trim)`. -/
def tokensOf (sel : String) : List String :=
  (splitChars (fun c => c = ',') sel.data).map (fun cs => String.mk (trimChars cs))

theorem tokensOf_ne_nil (sel : String) : tokensOf sel ≠ [] := by
  have h := splitChars_ne_nil (fun c => c = ',') sel.data
  simp only [tokensOf]
  intro hc
  exact h (List.map_eq_nil_iff.mp hc)

/-- ASCII lower-casing of a string (Rust `str::to_lowercase`; the two differ
only on non-ASCII characters, and none of the fixed command words or SQL
`LOWER` comparisons involve those). -/
def asciiLower (s : String) : String := String.mk (s.data.map Char.toLower)

/-- Join strings with a separator (Rust `Vec::join`). -/
def joinWith (sep : String) : List String → String
  | [] => ""
  | [x] => x
  | x :: y :: t => x ++ sep ++ joinWith sep (y :: t)

/-- Concatenation of a list of strings (used for the `push_str` loops). -/
def strConcat (l : List String) : String := l.foldl (fun a b => a ++ b) ""

/-- Rust `usize::from_str`: an optional leading `'+'`, then one or more ASCII
digits, with the value required to fit in 64 bits. -/
def parseUsize (s : String) : Option Nat :=
  let cs := match s.data with
    | '+' :: rest => rest
    | cs => cs
  if cs = [] then none
  else if cs.all Char.isDigit then
    let v := cs.foldl (fun a c => a * 10 + (c.toNat - 48)) 0
    if v < 2 ^ 64 then some v else none
  else none

/-! ## Decimal rendering of `usize` (Rust `format!("{}", n)`) -/

/-- Decimal digits of `n`, least significant first, by fuel (`n + 1` is always
enough fuel, see `decDigitsFuel_val`). -/
def decDigitsFuel : Nat → Nat → List Nat
  | 0, _ => []
  | fuel + 1, n => if n < 10 then [n] else n % 10 :: decDigitsFuel fuel (n / 10)

def decDigitChar : Nat → Char
  | 0 => '0' | 1 => '1' | 2 => '2' | 3 => '3' | 4 => '4'
  | 5 => '5' | 6 => '6' | 7 => '7' | 8 => '8' | _ => '9'

/-- Rust's decimal formatting of an unsigned integer. -/
def rustNatToString (n : Nat) : String :=
  String.mk (((decDigitsFuel (n + 1) n).reverse).map decDigitChar)

/-- Value reconstruction, inverse of `decDigitsFuel` (little-endian base 10). -/
def decValue : List Nat → Nat
  | [] => 0
  | d :: ds => d + 10 * decValue ds

theorem decDigitsFuel_val : ∀ fuel n, n < 10 ^ fuel → decValue (decDigitsFuel fuel n) = n := by
  intro fuel
  induction fuel with
  | zero => intro n h; interval_cases n; simp [decDigitsFuel, decValue]
  | succ fuel ih =>
    intro n h
    simp only [decDigitsFuel]
    split
    · simp [decValue]
    · rename_i hn
      have hdiv : n / 10 < 10 ^ fuel := by
        have : n < 10 * 10 ^ fuel := by
          simpa [pow_succ, Nat.mul_comm] using h
        omega
      simp only [decValue, ih (n / 10) hdiv]
      omega

theorem decDigitsFuel_lt_ten : ∀ fuel n, ∀ d ∈ decDigitsFuel fuel n, d < 10 := by
  intro fuel
  induction fuel with
  | zero => intro n d h; simp [decDigitsFuel] at h
  | succ fuel ih =>
    intro n d h
    simp only [decDigitsFuel] at h
    split at h
    · simp at h; omega
    · rcases List.mem_cons.mp h with h | h
      · omega
      · exact ih _ _ h

theorem decDigitChar_inj : ∀ d < 10, ∀ e < 10, decDigitChar d = decDigitChar e → d = e := by
  decide

theorem map_decDigitChar_inj :
    ∀ xs ys : List Nat, (∀ d ∈ xs, d < 10) → (∀ d ∈ ys, d < 10) →
      xs.map decDigitChar = ys.map decDigitChar → xs = ys := by
  intro xs
  induction xs with
  | nil => intro ys _ _ h; cases ys <;> simp_all
  | cons x xs ih =>
    intro ys hx hy h
    cases ys with
    | nil => simp at h
    | cons y ys =>
      simp only [List.map_cons, List.cons.injEq] at h
      have hxy : x = y :=
        decDigitChar_inj x (hx x (by simp)) y (hy y (by simp)) h.1
      have := ih ys (fun d hd => hx d (by simp [hd])) (fun d hd => hy d (by simp [hd])) h.2
      simp [hxy, this]

theorem rustNatToString_inj : Function.Injective rustNatToString := by
  intro a b h
  have hdata : ((decDigitsFuel (a + 1) a).reverse).map decDigitChar
      = ((decDigitsFuel (b + 1) b).reverse).map decDigitChar := congrArg String.data h
  have ha : ∀ d ∈ (decDigitsFuel (a + 1) a).reverse, d < 10 := by
    intro d hd; exact decDigitsFuel_lt_ten _ _ d (List.mem_reverse.mp hd)
  have hb : ∀ d ∈ (decDigitsFuel (b + 1) b).reverse, d < 10 := by
    intro d hd; exact decDigitsFuel_lt_ten _ _ d (List.mem_reverse.mp hd)
  have hrev := map_decDigitChar_inj _ _ ha hb hdata
  have hlists : decDigitsFuel (a + 1) a = decDigitsFuel (b + 1) b :=
    List.reverse_injective hrev
  have hpa : a < 10 ^ (a + 1) :=
    lt_of_lt_of_le (Nat.lt_pow_self (by omega) a) (Nat.pow_le_pow_right (by omega) (by omega))
  have hpb : b < 10 ^ (b + 1) :=
    lt_of_lt_of_le (Nat.lt_pow_self (by omega) b) (Nat.pow_le_pow_right (by omega) (by omega))
  calc a = decValue (decDigitsFuel (a + 1) a) := (decDigitsFuel_val _ _ hpa).symm
    _ = decValue (decDigitsFuel (b + 1) b) := by rw [hlists]
    _ = b := decDigitsFuel_val _ _ hpb

/-! ## Sorting and deduplication (SQL `ORDER BY`, Rust `sort_by`/`dedup_by`) -/

/-- Insert into a `le`-sorted list (stable: an element is placed before the
first existing element it is `le`-related to). -/
def insertLe {α : Type} (le : α → α → Bool) (a : α) : List α → List α
  | [] => [a]
  | b :: t => if le a b then a :: b :: t else b :: insertLe le a t

/-- Stable insertion sort; embeds both SQL `ORDER BY` and Rust's
`sort_by` on an already-produced vector. -/
def sortBy {α : Type} (le : α → α → Bool) : List α → List α
  | [] => []
  | a :: t => insertLe le a (sortBy le t)

/-- Rust `Vec::dedup_by(|a, b| eqb a b)`: drop every element equal (under
`eqb`) to the last retained element. -/
def dedupAdjAux {α : Type} (eqb : α → α → Bool) (prev : α) : List α → List α
  | [] => []
  | b :: t => if eqb b prev then dedupAdjAux eqb prev t else b :: dedupAdjAux eqb b t

def dedupAdj {α : Type} (eqb : α → α → Bool) : List α → List α
  | [] => []
  | a :: t => a :: dedupAdjAux eqb a t

/-- First occurrences of a list's elements, in order (used to embed
`SELECT DISTINCT` before the B-tree ordering is applied). -/
def firstOccurrences {α : Type} [DecidableEq α] : List α → List α
  | [] => []
  | a :: t => a :: (firstOccurrences t).filter (fun b => b ≠ a)

/-- Lexicographic comparison of character lists by code point; on valid
UTF-8 this coincides with bytewise comparison, i.e. SQLite's BINARY
collation. -/
def charListLe : List Char → List Char → Bool
  | [], _ => true
  | _ :: _, [] => false
  | a :: as, b :: bs =>
    if a.toNat < b.toNat then true
    else if b.toNat < a.toNat then false
    else charListLe as bs

def strLe (a b : String) : Bool := charListLe a.data b.data

/-! ## Generated group names (`format!("group{}", n)` scan in `create_group`) -/

def gname (n : Nat) : String := "group" ++ rustNatToString n

theorem gname_inj : Function.Injective gname := by
  intro a b h
  have hdata : ("group" ++ rustNatToString a).data = ("group" ++ rustNatToString b).data :=
    congrArg String.data h
  rw [String.data_append, String.data_append] at hdata
  have := List.append_cancel_left hdata
  have hstr : rustNatToString a = rustNatToString b := by
    cases ha : rustNatToString a
    cases hb : rustNatToString b
    simp_all
  exact rustNatToString_inj hstr

/-- Among the first `used.length + 1` candidate names, at least one is unused
(pigeonhole via injectivity of `gname`). -/
theorem exists_unused_gname (used : List String) :
    ∃ k, k ≤ used.length ∧ gname k ∉ used := by
  by_contra hcon
  push_neg at hcon
  have hsub : (List.range (used.length + 1)).map gname ⊆ used := by
    intro x hx
    rcases List.mem_map.mp hx with ⟨k, hk, rfl⟩
    exact hcon k (Nat.le_of_lt_succ (List.mem_range.mp hk))
  have hnodup : ((List.range (used.length + 1)).map gname).Nodup :=
    (List.nodup_range (used.length + 1)).map gname_inj
  have hlen := (hnodup.subperm hsub).length_le
  simp [List.length_map, List.length_range] at hlen

/-- The scanning loop of `create_group`: starting at `cur`, return the first
`n` with `gname n` not among `used` (fuelled; source is `loop { ... }`). -/
def findGroupNum (used : List String) : Nat → Nat → Nat
  | 0, cur => cur
  | fuel + 1, cur => if gname cur ∈ used then findGroupNum used fuel (cur + 1) else cur

def firstUnusedGroupNum (used : List String) : Nat :=
  findGroupNum used (used.length + 1) 0

theorem findGroupNum_spec (used : List String) :
    ∀ (fuel cur : Nat), (∃ j, j < fuel ∧ gname (cur + j) ∉ used) →
      gname (findGroupNum used fuel cur) ∉ used ∧
      cur ≤ findGroupNum used fuel cur ∧
      ∀ m, cur ≤ m → m < findGroupNum used fuel cur → gname m ∈ used := by
  intro fuel
  induction fuel with
  | zero =>
    intro cur h
    rcases h with ⟨j, hj, _⟩
    omega
  | succ fuel ih =>
    intro cur h
    rcases h with ⟨j, hj, hnot⟩
    simp only [findGroupNum]
    by_cases hc : gname cur ∈ used
    · have hj0 : j ≠ 0 := by
        rintro rfl
        simp at hnot
        exact hnot hc
      have hrec := ih (cur + 1) ⟨j - 1, by omega, by
        have : cur + 1 + (j - 1) = cur + j := by omega
        rw [this]; exact hnot⟩
      rw [if_pos hc]
      refine ⟨hrec.1, by omega, ?_⟩
      intro m hm hlt
      by_cases hmc : m = cur
      · exact hmc ▸ hc
      · exact hrec.2.2 m (by omega) hlt
    · rw [if_neg hc]
      exact ⟨hc, Nat.le_refl cur, fun m hm hlt => by omega⟩

theorem firstUnusedGroupNum_spec (used : List String) :
    gname (firstUnusedGroupNum used) ∉ used ∧
      ∀ m < firstUnusedGroupNum used, gname m ∈ used := by
  rcases exists_unused_gname used with ⟨k, hk, hnot⟩
  have h := findGroupNum_spec used (used.length + 1) 0 ⟨k, by omega, by simpa using hnot⟩
  exact ⟨h.1, fun m hm => h.2.2 m (by omega) hm⟩

/-! ## Command vocabulary (`command_word.rs`; the eight variants dispatched by
the exhaustive `match` in `process_message`) -/

inductive Command : Type
  | h | name | info | stop | contacts | delete | confirm | group
deriving DecidableEq

/-- The serde variant name of each command (the all-lowercase identifiers of
the enum). -/
def commandWord : Command → String
  | .h => "h" | .name => "name" | .info => "info" | .stop => "stop"
  | .contacts => "contacts" | .delete => "delete" | .confirm => "confirm" | .group => "group"

/-- `Command::try_from`: lower-case the token, then match it against the
variant names exactly (serde deserialization of a unit variant). -/
def commandOfWord (w : String) : Option Command :=
  let lw := asciiLower w
  if lw = "h" then some .h
  else if lw = "name" then some .name
  else if lw = "info" then some .info
  else if lw = "stop" then some .stop
  else if lw = "contacts" then some .contacts
  else if lw = "delete" then some .delete
  else if lw = "confirm" then some .confirm
  else if lw = "group" then some .group
  else none

def commandDescription : Command → String
  | .h => "show a list of available commands"
  | .info => "see information about a command"
  | .name => "set your preferred name"
  | .stop => "stop receiving messages and remove yourself from the database"
  | .contacts => "see a list of your groups and contacts"
  | .delete => "delete a contact by name"
  | .confirm => "confirm pending action(s)"
  | .group => "create a new group from your contacts"

/-- `(example, description)` of the optional parameter of each command. -/
def parameterDoc : Command → Option (String × String)
  | .h => none
  | .info => some ("name", "a command")
  | .name => some ("John S.", "your name")
  | .delete => some ("John", "contact name to delete")
  | .confirm => some ("2,3", "number(s) from a list of pending actions")
  | .stop => none
  | .contacts => none
  | .group => some ("John, Alice", "comma-separated list of contact name fragments")

def commandUsage (c : Command) : String :=
  match parameterDoc c with
  | some (_, d) => "Reply \"" ++ commandWord c ++ " X\", where X is " ++ d
  | none => "Reply \"" ++ commandWord c ++ "\""

def commandExample (c : Command) : String :=
  match parameterDoc c with
  | some (e, _) => "\nExample: \"" ++ commandWord c ++ " " ++ e ++ "\""
  | none => ""

def commandHint (c : Command) : String :=
  commandUsage c ++ ", to " ++ commandDescription c ++ "." ++ commandExample c

/-! ## Data model (§3 of the spec; the sqlx row types of `main.rs`) -/

structure UserRow where
  number : String
  name : String
deriving DecidableEq

structure ContactRow where
  id : Nat
  submitter_number : String
  contact_name : String
  contact_user_number : String
deriving DecidableEq

structure GroupRow where
  id : Nat
  creator_number : String
  name : String
deriving DecidableEq

structure GroupMemberRow where
  group_id : Nat
  member_number : String
deriving DecidableEq

structure PendingActionRow where
  submitter_number : String
  action_type : String
deriving DecidableEq

structure PendingDeletionRow where
  pending_action_submitter : String
  group_id : Option Nat
  contact_id : Option Nat
deriving DecidableEq

structure PendingGroupMemberRow where
  pending_action_submitter : String
  contact_id : Nat
deriving DecidableEq

structure DeferredContactRow where
  id : Nat
  submitter_number : String
  contact_name : String
  phone_number : String
  phone_description : Option String
deriving DecidableEq

/-- The group record produced by the deletion queries (`id`, `name`,
`member_count`). -/
structure GroupRecord where
  id : Nat
  name : String
  member_count : Nat
deriving DecidableEq

instance : Inhabited GroupRecord := ⟨⟨0, "", 0⟩⟩

instance : Inhabited ContactRow := ⟨⟨0, "", "", ""⟩⟩

/-- The relational store: one list per table, plus the next autoincrement
rowid of each table that the handlers insert into. -/
structure Store where
  users : List UserRow
  contacts : List ContactRow
  groups : List GroupRow
  group_members : List GroupMemberRow
  pending_actions : List PendingActionRow
  pending_deletions : List PendingDeletionRow
  pending_group_members : List PendingGroupMemberRow
  deferred_contacts : List DeferredContactRow
  next_contact_id : Nat
  next_group_id : Nat
  next_deferred_id : Nat
deriving DecidableEq

/-! ## Write statements and transactions -/

/-- One SQL write statement of the source, with its bound arguments. -/
inductive WriteOp : Type
  | deletePendingActions (submitter : String)
  | insertPendingAction (submitter action_type : String)
  | insertPendingDeletion (submitter : String) (group_id contact_id : Option Nat)
  | insertPendingGroupMember (submitter : String) (contact_id : Nat)
  | deleteGroupById (id : Nat)
  | deleteContactById (id : Nat)
  | insertContact (submitter contact_name contact_user_number : String)
  | updateContactNumber (submitter contact_name contact_user_number : String)
  | deleteDeferredByName (submitter contact_name : String)
  | insertGroup (name creator_number : String)
  | insertGroupMember (group_id : Nat) (member_number : String)
  | insertDeferred (submitter contact_name phone_number : String)
      (phone_description : Option String)
  | insertUser (number name : String)
  | updateUserName (number name : String)
  | deleteUser (number : String)
deriving DecidableEq

/-- Effect of one write statement on the store.  Cascades modelled from the
spec/schema (the SQL schema is not under `src/`): deleting a pending action
removes its `pending_deletions`/`pending_group_members` candidate rows (§3:
candidate rows "never outlive their parent"); deleting a group removes its
`group_members` rows (§3: "Deleting a Group cascades to its members",
`PRAGMA foreign_keys = ON` in `main`). -/
def applyWrite (s : Store) (w : WriteOp) : Store :=
  match w with
  | .deletePendingActions sub =>
      { s with
        pending_actions := s.pending_actions.filter (fun r => r.submitter_number ≠ sub),
        pending_deletions :=
          s.pending_deletions.filter (fun r => r.pending_action_submitter ≠ sub),
        pending_group_members :=
          s.pending_group_members.filter (fun r => r.pending_action_submitter ≠ sub) }
  | .insertPendingAction sub at_ =>
      { s with pending_actions := s.pending_actions ++ [⟨sub, at_⟩] }
  | .insertPendingDeletion sub gid cid =>
      { s with pending_deletions := s.pending_deletions ++ [⟨sub, gid, cid⟩] }
  | .insertPendingGroupMember sub cid =>
      { s with pending_group_members := s.pending_group_members ++ [⟨sub, cid⟩] }
  | .deleteGroupById gid =>
      { s with
        groups := s.groups.filter (fun g => g.id ≠ gid),
        group_members := s.group_members.filter (fun m => m.group_id ≠ gid) }
  | .deleteContactById cid =>
      { s with contacts := s.contacts.filter (fun c => c.id ≠ cid) }
  | .insertContact sub n num =>
      { s with
        contacts := s.contacts ++ [⟨s.next_contact_id, sub, n, num⟩],
        next_contact_id := s.next_contact_id + 1 }
  | .updateContactNumber sub n num =>
      { s with
        contacts := s.contacts.map (fun c =>
          if c.submitter_number = sub ∧ c.contact_name = n then
            { c with contact_user_number := num }
          else c) }
  | .deleteDeferredByName sub n =>
      { s with
        deferred_contacts := s.deferred_contacts.filter
          (fun r => ¬(r.submitter_number = sub ∧ r.contact_name = n)) }
  | .insertGroup nm creator =>
      { s with
        groups := s.groups ++ [⟨s.next_group_id, creator, nm⟩],
        next_group_id := s.next_group_id + 1 }
  | .insertGroupMember gid num =>
      { s with group_members := s.group_members ++ [⟨gid, num⟩] }
  | .insertDeferred sub n num desc =>
      { s with
        deferred_contacts := s.deferred_contacts ++ [⟨s.next_deferred_id, sub, n, num, desc⟩],
        next_deferred_id := s.next_deferred_id + 1 }
  | .insertUser num nm =>
      { s with users := s.users ++ [⟨num, nm⟩] }
  | .updateUserName num nm =>
      { s with users := s.users.map (fun u => if u.number = num then ⟨u.number, nm⟩ else u) }
  | .deleteUser num =>
      { s with users := s.users.filter (fun u => u.number ≠ num) }

/-- Run a sequence of write statements (one transaction, or a pool-level
sequence; SQLite applies a transaction's statements in order and commits them
atomically). -/
def runOps (s : Store) (ops : List WriteOp) : Store := ops.foldl applyWrite s

/-- What a handler returns: the reply text, the store after the handler, and
the transactions it committed, in order.  A statement executed directly on the
pool is recorded as its own singleton transaction (SQLite autocommit). -/
structure HandlerOut where
  store : Store
  reply : String
  txns : List (List WriteOp)
deriving DecidableEq

/-! ## Query helpers (the SELECTs of `main.rs`) -/

/-- `COUNT(*)` of `group_members` rows of a group (the `member_counts` CTE /
`LEFT JOIN ... COUNT` of the listing queries). -/
def memberCount (s : Store) (gid : Nat) : Nat :=
  (s.group_members.filter (fun m => m.group_id = gid)).length

/-- `Modelled from the spec:` `E164::area_code` lives in `util.rs`, which is
not under `src/`.  Glossary: "a derived display fragment of a normalized
phone number" — the three digits following the `+1` country code of an E.164
string. -/
def areaCode (number : String) : String :=
  String.mk ((number.data.drop 2).take 3)

/-- Substring containment `LOWER(col) LIKE '%' || LOWER(frag) || '%'`
(SQLite `LOWER` folds ASCII only, matching `asciiLower`; `%`/`_` wildcard
characters inside the fragment are not modelled — no claim exercises them). -/
def likeContains (frag col : String) : Bool :=
  decide ((asciiLower frag).data <:+: (asciiLower col).data)

/-- Groups staged for deletion, re-derived for the confirm: join of
`pending_deletions` (of this submitter) with `groups`, with member counts,
`ORDER BY g.name`. -/
def deletionGroups (s : Store) (sender : String) : List GroupRecord :=
  sortBy (fun a b => strLe a.name b.name)
    ((s.pending_deletions.filter (fun pd => pd.pending_action_submitter = sender)).filterMap
      (fun pd => pd.group_id.bind (fun gid =>
        (s.groups.find? (fun g => g.id = gid)).map
          (fun g => ({ id := g.id, name := g.name, member_count := memberCount s g.id }
            : GroupRecord)))))

/-- Contacts staged for deletion, re-derived for the confirm: join of
`pending_deletions` with `contacts`, `ORDER BY c.contact_name`. -/
def deletionContacts (s : Store) (sender : String) : List ContactRow :=
  sortBy (fun a b => strLe a.contact_name b.contact_name)
    ((s.pending_deletions.filter (fun pd => pd.pending_action_submitter = sender)).filterMap
      (fun pd => pd.contact_id.bind (fun cid => s.contacts.find? (fun c => c.id = cid))))

/-- Candidate contacts of a `group` pending action: join of
`pending_group_members` with `contacts`, `ORDER BY c.contact_name` (the
per-token `LIMIT 1 OFFSET ?` lookup indexes into this list). -/
def groupCandidates (s : Store) (sender : String) : List ContactRow :=
  sortBy (fun a b => strLe a.contact_name b.contact_name)
    ((s.pending_group_members.filter (fun p => p.pending_action_submitter = sender)).filterMap
      (fun p => s.contacts.find? (fun c => c.id = p.contact_id)))

/-- `SELECT DISTINCT contact_name FROM deferred_contacts WHERE
submitter_number = ?` — no `ORDER BY`, so the rows surface in the order of the
DISTINCT temp B-tree: ascending BINARY (bytewise) order.  Embedded as
first-occurrence dedup followed by the `String` sort. -/
def distinctDeferredNames (s : Store) (sender : String) : List String :=
  sortBy strLe
    (firstOccurrences
      ((s.deferred_contacts.filter (fun r => r.submitter_number = sender)).map
        (fun r => r.contact_name)))

/-- `SELECT phone_number ... WHERE submitter_number = ? AND contact_name = ?
ORDER BY id` — the candidate numbers of one deferred contact, in insertion
order. -/
def deferredNumbersFor (s : Store) (sender nm : String) : List String :=
  (sortBy (fun a b => a.id ≤ b.id)
    (s.deferred_contacts.filter
      (fun r => r.submitter_number = sender ∧ r.contact_name = nm))).map
    (fun r => r.phone_number)

/-! ## Per-token classification loops

The three confirm loops push each token into one of up to three accumulator
vectors.  `triFold`/`duoFold` are the common shape of those `for` loops; the
`_eq` lemmas show the loops process every token independently (no abort). -/

inductive Tri (α β γ : Type) : Type
  | a : α → Tri α β γ
  | b : β → Tri α β γ
  | c : γ → Tri α β γ
deriving DecidableEq

def triStep {σ α β γ : Type} (cl : σ → Tri α β γ)
    (acc : List α × List β × List γ) (t : σ) : List α × List β × List γ :=
  match cl t with
  | .a x => (acc.1 ++ [x], acc.2.1, acc.2.2)
  | .b y => (acc.1, acc.2.1 ++ [y], acc.2.2)
  | .c z => (acc.1, acc.2.1, acc.2.2 ++ [z])

def triFold {σ α β γ : Type} (cl : σ → Tri α β γ) (ts : List σ) :
    List α × List β × List γ :=
  ts.foldl (triStep cl) ([], [], [])

def triA {σ α β γ : Type} (cl : σ → Tri α β γ) (t : σ) : Option α :=
  match cl t with | .a x => some x | _ => none

def triB {σ α β γ : Type} (cl : σ → Tri α β γ) (t : σ) : Option β :=
  match cl t with | .b y => some y | _ => none

def triC {σ α β γ : Type} (cl : σ → Tri α β γ) (t : σ) : Option γ :=
  match cl t with | .c z => some z | _ => none

theorem triFold_aux {σ α β γ : Type} (cl : σ → Tri α β γ) :
    ∀ (ts : List σ) (acc : List α × List β × List γ),
      ts.foldl (triStep cl) acc =
        (acc.1 ++ ts.filterMap (triA cl), acc.2.1 ++ ts.filterMap (triB cl),
          acc.2.2 ++ ts.filterMap (triC cl)) := by
  intro ts
  induction ts with
  | nil => intro acc; simp
  | cons t ts ih =>
    intro acc
    simp only [List.foldl_cons, ih, List.filterMap_cons]
    cases h : cl t <;> simp [triStep, triA, triB, triC, h]

theorem triFold_eq {σ α β γ : Type} (cl : σ → Tri α β γ) (ts : List σ) :
    triFold cl ts =
      (ts.filterMap (triA cl), ts.filterMap (triB cl), ts.filterMap (triC cl)) := by
  simpa using triFold_aux cl ts ([], [], [])

inductive Duo (α β : Type) : Type
  | a : α → Duo α β
  | b : β → Duo α β
deriving DecidableEq

def duoStep {σ α β : Type} (cl : σ → Duo α β)
    (acc : List α × List β) (t : σ) : List α × List β :=
  match cl t with
  | .a x => (acc.1 ++ [x], acc.2)
  | .b y => (acc.1, acc.2 ++ [y])

def duoFold {σ α β : Type} (cl : σ → Duo α β) (ts : List σ) : List α × List β :=
  ts.foldl (duoStep cl) ([], [])

def duoA {σ α β : Type} (cl : σ → Duo α β) (t : σ) : Option α :=
  match cl t with | .a x => some x | _ => none

def duoB {σ α β : Type} (cl : σ → Duo α β) (t : σ) : Option β :=
  match cl t with | .b y => some y | _ => none

theorem duoFold_aux {σ α β : Type} (cl : σ → Duo α β) :
    ∀ (ts : List σ) (acc : List α × List β),
      ts.foldl (duoStep cl) acc =
        (acc.1 ++ ts.filterMap (duoA cl), acc.2 ++ ts.filterMap (duoB cl)) := by
  intro ts
  induction ts with
  | nil => intro acc; simp
  | cons t ts ih =>
    intro acc
    simp only [List.foldl_cons, ih, List.filterMap_cons]
    cases h : cl t <;> simp [duoStep, duoA, duoB, h]

theorem duoFold_eq {σ α β : Type} (cl : σ → Duo α β) (ts : List σ) :
    duoFold cl ts = (ts.filterMap (duoA cl), ts.filterMap (duoB cl)) := by
  simpa using duoFold_aux cl ts ([], [])

/-! ## Handlers -/

/-- UTF-8 byte length of a string (Rust `str::len`). -/
def utf8Len (s : String) : Nat := s.data.foldl (fun a c => a + c.utf8Size) 0

/-- The `""`/`"s"` suffix of `format!("{}{}", n, if n == 1 { "" } else { "s" })`. -/
def plural (n : Nat) : String := if n = 1 then "" else "s"

/-- `process_name`: join the remaining words with spaces; reject the empty
name with the usage text and names longer than 20 bytes with the
length-specific message. -/
def processName (ws : List String) : Except String String :=
  let nm := joinWith " " ws
  if nm = "" then .error (commandUsage .name)
  else if 20 < utf8Len nm then
    .error ("That name is " ++ rustNatToString (utf8Len nm) ++
      " characters long.\nPlease shorten it to 20 characters or less.")
  else .ok nm

/-- `set_pending_action`: delete any existing pending action of the
submitter, then insert the new one — both on the caller's transaction. -/
def setPendingActionOps (sender action_type : String) : List WriteOp :=
  [.deletePendingActions sender, .insertPendingAction sender action_type]

/-- `Modelled from the spec:` `add_contact` lives in `contacts.rs`, which is
not under `src/`.  §4.6: an existing Contact with the same (submitter, name)
and the same number is left unchanged; with a different number its number is
replaced; otherwise a new Contact row is inserted.  Returns the store and the
write statements issued (none, for the unchanged case). -/
def addContact (s : Store) (sender nm num : String) : Store × List WriteOp :=
  match s.contacts.find? (fun c => c.submitter_number = sender ∧ c.contact_name = nm) with
  | some c =>
    if c.contact_user_number = num then (s, [])
    else (applyWrite s (.updateContactNumber sender nm num), [.updateContactNumber sender nm num])
  | none => (applyWrite s (.insertContact sender nm num), [.insertContact sender nm num])

/-! ### `handle_group` -/

/-- The fuzzy-matched contact list of `handle_group`: per-fragment
`LIKE`-queries (each `ORDER BY contact_name`), appended, then
`sort_by` id, `dedup_by` id, re-`sort_by` name. -/
def handleGroupMatches (s : Store) (sender names : String) : List ContactRow :=
  let fragments := (splitChars (fun c => c = ',') names.data).map (fun cs => String.mk (trimChars cs))
  let found := fragments.foldl (fun acc frag =>
    acc ++ sortBy (fun a b => strLe a.contact_name b.contact_name)
      (s.contacts.filter
        (fun c => c.submitter_number = sender ∧ likeContains frag c.contact_name))) []
  let byId := sortBy (fun a b => a.id ≤ b.id) found
  let deduped := dedupAdj (fun a b => a.id = b.id) byId
  sortBy (fun a b => strLe a.contact_name b.contact_name) deduped

def handleGroup (s : Store) (sender names : String) : HandlerOut :=
  let fragments := (splitChars (fun c => c = ',') names.data).map (fun cs => String.mk (trimChars cs))
  if fragments = [] then ⟨s, "Please provide at least one name to search for.", []⟩
  else
    let cs := handleGroupMatches s sender names
    if cs = [] then ⟨s, "No contacts found matching: " ++ joinWith ", " fragments, []⟩
    else
      let ops := setPendingActionOps sender "group" ++
        cs.map (fun c => WriteOp.insertPendingGroupMember sender c.id)
      let listing := joinWith "\n" (cs.enum.map (fun p =>
        rustNatToString (p.1 + 1) ++ ". " ++ p.2.contact_name ++ " (" ++
          areaCode p.2.contact_user_number ++ ")"))
      ⟨runOps s ops,
        "Found these contacts:\n" ++ listing ++
          "\n\nTo create a group with these contacts, reply \"confirm NUM1, NUM2, ...\"",
        [ops]⟩

/-! ### `handle_delete` -/

def deleteGroupsFound (s : Store) (sender nameArg : String) : List GroupRecord :=
  sortBy (fun a b => strLe a.name b.name)
    ((s.groups.filter (fun g => g.creator_number = sender ∧ likeContains nameArg g.name)).map
      (fun g => ({ id := g.id, name := g.name, member_count := memberCount s g.id }
        : GroupRecord)))

def deleteContactsFound (s : Store) (sender nameArg : String) : List ContactRow :=
  sortBy (fun a b => strLe a.contact_name b.contact_name)
    (s.contacts.filter (fun c => c.submitter_number = sender ∧ likeContains nameArg c.contact_name))

def handleDelete (s : Store) (sender nameArg : String) : HandlerOut :=
  let groups := deleteGroupsFound s sender nameArg
  let contacts := deleteContactsFound s sender nameArg
  if groups = [] ∧ contacts = [] then
    ⟨s, "No groups or contacts found matching \"" ++ nameArg ++ "\"", []⟩
  else
    let ops := setPendingActionOps sender "deletion" ++
      groups.map (fun g => WriteOp.insertPendingDeletion sender (some g.id) none) ++
      contacts.map (fun c => WriteOp.insertPendingDeletion sender none (some c.id))
    let gPart := if groups = [] then "" else
      "Found these groups:\n" ++ strConcat (groups.enum.map (fun p =>
        rustNatToString (p.1 + 1) ++ ". " ++ p.2.name ++ " (" ++
          rustNatToString p.2.member_count ++ " members)\n"))
    let cPart := if contacts = [] then "" else
      (if groups = [] then "" else "\n") ++ "Found these contacts:\n" ++
        strConcat (contacts.enum.map (fun p =>
          rustNatToString (p.1 + groups.length + 1) ++ ". " ++ p.2.contact_name ++ " (" ++
            areaCode p.2.contact_user_number ++ ")\n"))
    ⟨runOps s ops,
      gPart ++ cPart ++
        "\nTo delete items, reply \"confirm NUM1, NUM2, ...\", where NUM1, NUM2, etc. are numbers from the lists above.",
      [ops]⟩

/-! ### Confirm: `deletion` -/

/-- Per-token classification of the deletion confirm (`main.rs` 704–722):
parse as `usize`; positive `num` is decremented and indexed into the combined
groups-then-contacts list; everything else is an invalid-token message. -/
def delClass (G : List GroupRecord) (C : List ContactRow) (t : String) :
    Tri GroupRecord ContactRow String :=
  match parseUsize t with
  | some num =>
    if num > 0 then
      let idx := num - 1
      if idx < G.length then .a (G.getD idx default)
      else if idx < G.length + C.length then .b (C.getD (idx - G.length) default)
      else .c ("Invalid selection: " ++ rustNatToString (idx + 1))
    else .c ("Invalid selection: " ++ t)
  | none => .c ("Invalid selection: " ++ t)

def confirmDeletionParts (s : Store) (sender sel : String) :
    List GroupRecord × List ContactRow × List String :=
  triFold (delClass (deletionGroups s sender) (deletionContacts s sender)) (tokensOf sel)

def deletionConfirmReply (selG : List GroupRecord) (selC : List ContactRow)
    (inv : List String) : String :=
  let gPart := if selG = [] then "" else
    "Deleted " ++ rustNatToString selG.length ++ " group" ++ plural selG.length ++ ":\n" ++
      strConcat (selG.map (fun g =>
        "• " ++ g.name ++ " (" ++ rustNatToString g.member_count ++ " members)\n"))
  let cPart := if selC = [] then "" else
    (if gPart = "" then "" else "\n") ++
      "Deleted " ++ rustNatToString selC.length ++ " contact" ++ plural selC.length ++ ":\n" ++
      strConcat (selC.map (fun c =>
        "• " ++ c.contact_name ++ " (" ++ areaCode c.contact_user_number ++ ")\n"))
  let ePart := if inv = [] then "" else
    (if gPart ++ cPart = "" then "" else "\n") ++ "Errors:\n" ++ joinWith "\n" inv
  gPart ++ cPart ++ ePart

def confirmDeletion (s : Store) (sender sel : String) : HandlerOut :=
  let parts := confirmDeletionParts s sender sel
  let selG := parts.1
  let selC := parts.2.1
  let inv := parts.2.2
  if selG = [] ∧ selC = [] ∧ inv = [] then ⟨s, "No valid selections provided.", []⟩
  else
    let ops := selG.map (fun g => WriteOp.deleteGroupById g.id) ++
      selC.map (fun c => WriteOp.deleteContactById c.id) ++
      [WriteOp.deletePendingActions sender]
    ⟨runOps s ops, deletionConfirmReply selG selC inv, [ops]⟩

/-! ### Confirm: `group` -/

/-- Per-token classification of the group confirm (`main.rs` 806–832): a
positive `usize` is looked up with `LIMIT 1 OFFSET num-1` in the ordered
candidate join; failures collect messages. -/
def groupClass (s : Store) (sender : String) (t : String) : Duo ContactRow String :=
  match parseUsize t with
  | some num =>
    if num > 0 then
      match (groupCandidates s sender)[num - 1]? with
      | some c => .a c
      | none => .b ("Invalid selection: " ++ rustNatToString num)
    else .b ("Invalid number: " ++ t)
  | none => .b ("Invalid number: " ++ t)

def confirmGroupParts (s : Store) (sender sel : String) : List ContactRow × List String :=
  duoFold (groupClass s sender) (tokensOf sel)

/-- `create_group`: scan `group<N>` names from 0 on the pool, then — in one
transaction — insert the Group row, one GroupMember per contact keyed by the
contact's phone number, and delete the submitter's pending action. -/
def usedGroupNames (s : Store) (sender : String) : List String :=
  (s.groups.filter (fun g => g.creator_number = sender)).map (fun g => g.name)

def createGroupOps (s : Store) (sender : String) (contacts : List ContactRow) : List WriteOp :=
  let nm := gname (firstUnusedGroupNum (usedGroupNames s sender))
  [WriteOp.insertGroup nm sender] ++
    contacts.map (fun c => WriteOp.insertGroupMember s.next_group_id c.contact_user_number) ++
    [WriteOp.deletePendingActions sender]

def createGroup (s : Store) (sender : String) (contacts : List ContactRow)
    (invalid : List String) : HandlerOut :=
  let nm := gname (firstUnusedGroupNum (usedGroupNames s sender))
  let ops := createGroupOps s sender contacts
  let reply := "Created group \"" ++ nm ++ "\" with " ++ rustNatToString contacts.length ++
      " members:\n" ++
      strConcat (contacts.map (fun c =>
        "• " ++ c.contact_name ++ " (" ++ areaCode c.contact_user_number ++ ")\n")) ++
      (if invalid = [] then "" else "\nErrors:\n" ++ joinWith "\n" invalid)
  ⟨runOps s ops, reply, [ops]⟩

def confirmGroup (s : Store) (sender sel : String) : HandlerOut :=
  let parts := confirmGroupParts s sender sel
  createGroup s sender parts.1 parts.2

/-! ### Confirm: `deferred_contacts` -/

/-- Per-token resolution of the deferred-contacts confirm (`main.rs`
530–602): the token must be digits followed by one ASCII-lowercase letter;
the digits pick a distinct contact name (1-based), the letter picks one of
that name's numbers (`a` = index 0, `ORDER BY id`). -/
def deferredClass (s : Store) (sender : String) (names : List String) (t : String) :
    Duo (String × String) String :=
  match t.data.getLast? with
  | none => .b ("Invalid selection format: " ++ t)
  | some last =>
    if ¬(last.isLower ∧ t.data.dropLast.all Char.isDigit) then
      .b ("Invalid selection format: " ++ t)
    else
      let numStr := String.mk t.data.dropLast
      match parseUsize numStr with
      | some n =>
        if n > 0 then
          let idx := n - 1
          match names[idx]? with
          | some nm =>
            let numbers := deferredNumbersFor s sender nm
            let lidx := last.toNat - 97
            if lidx < numbers.length then .a (nm, numbers.getD lidx "")
            else .b ("Invalid letter selection: " ++ String.mk [last])
          | none => .b ("Contact number " ++ rustNatToString (idx + 1) ++ " not found")
        else .b ("Invalid contact number: " ++ numStr)
      | none => .b ("Invalid contact number: " ++ numStr)

/-- One iteration of the deferred-confirm token loop.  A resolved token runs
`add_contact` directly on the pool (its own autocommitted transaction) and
records the display entry `"{name} ({number})"`. -/
def deferredLoopStep (sender : String) (names : List String)
    (acc : Store × List String × List String × List (List WriteOp)) (t : String) :
    Store × List String × List String × List (List WriteOp) :=
  match deferredClass acc.1 sender names t with
  | .a (nm, num) =>
    let r := addContact acc.1 sender nm num
    (r.1, acc.2.1 ++ [nm ++ " (" ++ num ++ ")"], acc.2.2.1,
      acc.2.2.2 ++ (if r.2 = [] then [] else [r.2]))
  | .b msg => (acc.1, acc.2.1, acc.2.2.1 ++ [msg], acc.2.2.2)

def confirmDeferredLoop (s : Store) (sender sel : String) :
    Store × List String × List String × List (List WriteOp) :=
  (tokensOf sel).foldl (deferredLoopStep sender (distinctDeferredNames s sender)) (s, [], [], [])

def confirmDeferredParts (s : Store) (sender sel : String) : List String × List String :=
  let r := confirmDeferredLoop s sender sel
  (r.2.1, r.2.2.1)

/-- The cleanup transaction of the deferred confirm (`main.rs` 606–636): for
each successful display entry, recover a name with `split(" (")` and delete
that name's deferred rows; then delete the pending action iff no deferred
rows of the submitter remain. -/
def deferredCleanupOps (stLoop : Store) (sender : String) (successful : List String) :
    List WriteOp :=
  let dels := successful.filterMap (fun entry =>
    (rustSplitStr " (" entry).head?.map (fun nm => WriteOp.deleteDeferredByName sender nm))
  let stMid := runOps stLoop dels
  if (stMid.deferred_contacts.filter (fun r => r.submitter_number = sender)).length = 0 then
    dels ++ [WriteOp.deletePendingActions sender]
  else dels

def confirmDeferred (s : Store) (sender sel : String) : HandlerOut :=
  let r := confirmDeferredLoop s sender sel
  let succ := r.2.1
  let failed := r.2.2.1
  let cleanup := deferredCleanupOps r.1 sender succ
  let succPart := if succ = [] then "" else
    "Successfully added " ++ rustNatToString succ.length ++ " contact" ++ plural succ.length ++
      ":\n" ++ strConcat (succ.map (fun e => "• " ++ e ++ "\n"))
  let failPart := if failed = [] then "" else
    (if succPart = "" then "" else "\n") ++ "Failed to process:\n" ++
      strConcat (failed.map (fun e => "• " ++ e ++ "\n"))
  ⟨runOps r.1 cleanup, succPart ++ failPart, r.2.2.2 ++ [cleanup]⟩

/-! ### `handle_confirm` dispatcher -/

def handleConfirm (s : Store) (sender sel : String) : HandlerOut :=
  match s.pending_actions.find? (fun r => r.submitter_number = sender) with
  | none => ⟨s, "No pending actions to confirm.", []⟩
  | some act =>
    if act.action_type = "deferred_contacts" then confirmDeferred s sender sel
    else if act.action_type = "deletion" then confirmDeletion s sender sel
    else if act.action_type = "group" then confirmGroup s sender sel
    else ⟨s, "Invalid action type", []⟩

/-! ### Remaining command branches and dispatch -/

/-- `Modelled from the spec:` `handle_help` lives in `help.rs`, which is not
under `src/`.  §4.1: the generic help enumerates the commands' hints; it is
read-only. -/
def helpReply : String :=
  joinWith "\n"
    ([Command.h, .name, .info, .stop, .contacts, .delete, .confirm, .group].map commandHint)

/-- The `contacts` listing (`main.rs` 197–267): groups (name order, member
counts), then contacts (name order) numbered after the groups. -/
def contactsReply (s : Store) (sender : String) : String :=
  let groups := sortBy (fun a b => strLe a.name b.name)
    ((s.groups.filter (fun g => g.creator_number = sender)).map
      (fun g => ({ id := g.id, name := g.name, member_count := memberCount s g.id }
        : GroupRecord)))
  let contacts := sortBy (fun a b => strLe a.contact_name b.contact_name)
    (s.contacts.filter (fun c => c.submitter_number = sender))
  if groups = [] ∧ contacts = [] then "You don't have any groups or contacts."
  else
    let gPart := if groups = [] then "" else
      "Your groups:\n" ++ strConcat (groups.enum.map (fun p =>
        rustNatToString (p.1 + 1) ++ ". " ++ p.2.name ++ " (" ++
          rustNatToString p.2.member_count ++ " members)\n"))
    let cPart := if contacts = [] then "" else
      (if groups = [] then "" else "\n") ++ "Your contacts:\n" ++
        joinWith "\n" (contacts.enum.map (fun p =>
          rustNatToString (p.1 + groups.length + 1) ++ ". " ++ p.2.contact_name ++ " (" ++
            areaCode p.2.contact_user_number ++ ")"))
    gPart ++ cPart

def dispatchCommand (s : Store) (sender : String) (c : Command) (rest : List String) :
    HandlerOut :=
  match c with
  | .h => ⟨s, helpReply, []⟩
  | .name =>
    match processName rest with
    | .ok nm =>
      ⟨applyWrite s (.updateUserName sender nm),
        "Your name has been updated to \"" ++ nm ++ "\"", [[.updateUserName sender nm]]⟩
    | .error e => ⟨s, e, []⟩
  | .stop => ⟨applyWrite s (.deleteUser sender), "You've been unsubscribed. Goodbye!",
      [[.deleteUser sender]]⟩
  | .info =>
    match rest.head? with
    | some t =>
      match commandOfWord t with
      | some c2 =>
        ⟨s, commandUsage c2 ++ ", to " ++ commandDescription c2 ++ "." ++ commandExample c2, []⟩
      | none => ⟨s, "Command \"" ++ t ++ "\" not recognized", []⟩
    | none => ⟨s, commandHint .info, []⟩
  | .contacts => ⟨s, contactsReply s sender, []⟩
  | .delete =>
    let nm := joinWith " " rest
    if nm = "" then ⟨s, commandHint .delete, []⟩ else handleDelete s sender nm
  | .confirm =>
    let nums := joinWith " " rest
    if nums = "" then ⟨s, commandHint .confirm, []⟩ else handleConfirm s sender nums
  | .group =>
    let names := joinWith " " rest
    if names = "" then ⟨s, commandHint .group, []⟩ else handleGroup s sender names

/-- The registered-user path of `process_message` (`main.rs` 149–293): no
first word gives the generic help; an unrecognized first word names the word
and appends the help hint; otherwise the command's handler runs. -/
def dispatchRegistered (s : Store) (sender body : String) : HandlerOut :=
  match wordsOf body with
  | [] => ⟨s, commandHint .h, []⟩
  | w :: rest =>
    match commandOfWord w with
    | none =>
      ⟨s, "We didn't recognize that command word: \"" ++ w ++ "\".\n" ++ commandHint .h, []⟩
    | some c => dispatchCommand s sender c rest

/-- `onboard_new_user`: only a leading `name` command registers; anything
else gets the onboarding banner. -/
def onboardNewUser (s : Store) (sender body : String) : HandlerOut :=
  let banner : HandlerOut :=
    ⟨s, "Greetings! This is Decision Bot (https://github.com/samcarey/decisionbot).\nTo participate:\n" ++
      commandHint .name, []⟩
  match wordsOf body with
  | [] => banner
  | w :: rest =>
    if commandOfWord w = some .name then
      match processName rest with
      | .ok nm =>
        ⟨applyWrite s (.insertUser sender nm), "Hello, " ++ nm ++ "! " ++ commandHint .h,
          [[.insertUser sender nm]]⟩
      | .error e => ⟨s, e, []⟩
    else banner

/-- `process_message` for a plain text body (the vCard attachment path is the
separate `importVcard` model below). -/
def processMessage (s : Store) (sender body : String) : HandlerOut :=
  match s.users.find? (fun u => u.number = sender) with
  | none => onboardNewUser s sender body
  | some _ => dispatchRegistered s sender body

/-- `Modelled from the spec:` `process_contact_submission` (the vCard import)
lives in `contacts.rs`, which is not under `src/`.  Takes the already-parsed
records (display name, candidate numbers with labels); §4.6: zero numbers are
skipped, one number resolves through `add_contact`, several numbers insert
one DeferredContact row per number and set the `deferred_contacts` pending
action (§4.2: setting first clears any previous pending action). -/
def importRecord (s : Store) (sender : String) :
    String × List (String × Option String) → Store
  | (_, []) => s
  | (nm, [(num, _)]) => (addContact s sender nm num).1
  | (nm, nums) =>
    let s1 := runOps s (setPendingActionOps sender "deferred_contacts")
    runOps s1 (nums.map (fun p => WriteOp.insertDeferred sender nm p.1 p.2))

def importVcard (s : Store) (sender : String)
    (records : List (String × List (String × Option String))) : Store :=
  records.foldl (fun st r => importRecord st sender r) s

/-! ## Helper lemmas -/

theorem getElemQ_eq_some_getD {α : Type} (d : α) (l : List α) (i : Nat) (h : i < l.length) :
    l[i]? = some (l.getD i d) := by
  rw [List.getD_eq_getElem l d h]
  exact List.getElem?_eq_getElem h

theorem length_le_utf8Len_aux :
    ∀ (l : List Char) (a : Nat), a + l.length ≤ l.foldl (fun acc c => acc + c.utf8Size) a := by
  intro l
  induction l with
  | nil => intro a; simp
  | cons c t ih =>
    intro a
    have h1 := Char.utf8Size_pos c
    have h2 := ih (a + c.utf8Size)
    simp only [List.foldl_cons, List.length_cons]
    omega

theorem length_le_utf8Len (s : String) : s.length ≤ utf8Len s := by
  have h := length_le_utf8Len_aux s.data 0
  have e1 : s.length = s.data.length := rfl
  have e2 : utf8Len s = s.data.foldl (fun acc c => acc + c.utf8Size) 0 := rfl
  omega

/-! ## C3 -/

/-- **C3.** For an inbound body from a registered user: the body is trimmed
and split on whitespace, the first token is lower-cased and matched exactly
against the eight-word vocabulary; no token at all gives the generic help
reply, and an unrecognized first token gives the distinct reply naming the
word plus the help hint, in both cases without touching the store. -/
theorem c3_command_parsing :
    (∀ w : String, (commandOfWord w).isSome ↔
      (asciiLower w = "h" ∨ asciiLower w = "name" ∨ asciiLower w = "info" ∨
        asciiLower w = "stop" ∨ asciiLower w = "contacts" ∨ asciiLower w = "delete" ∨
        asciiLower w = "confirm" ∨ asciiLower w = "group")) ∧
    (∀ (s : Store) (sender body : String), (s.users.find? (fun u => u.number = sender)).isSome →
      wordsOf body = [] →
      processMessage s sender body = ⟨s, commandHint .h, []⟩) ∧
    (∀ (s : Store) (sender body w : String) (rest : List String),
      (s.users.find? (fun u => u.number = sender)).isSome →
      wordsOf body = w :: rest → commandOfWord w = none →
      processMessage s sender body =
        ⟨s, "We didn't recognize that command word: \"" ++ w ++ "\".\n" ++ commandHint .h, []⟩) := by
  refine ⟨?_, ?_, ?_⟩
  · intro w
    have hc : commandOfWord w =
        (if asciiLower w = "h" then some Command.h
        else if asciiLower w = "name" then some Command.name
        else if asciiLower w = "info" then some Command.info
        else if asciiLower w = "stop" then some Command.stop
        else if asciiLower w = "contacts" then some Command.contacts
        else if asciiLower w = "delete" then some Command.delete
        else if asciiLower w = "confirm" then some Command.confirm
        else if asciiLower w = "group" then some Command.group
        else none) := rfl
    rw [hc]
    split_ifs with h1 h2 h3 h4 h5 h6 h7 h8
    · exact ⟨fun _ => Or.inl h1, fun _ => rfl⟩
    · exact ⟨fun _ => Or.inr (Or.inl h2), fun _ => rfl⟩
    · exact ⟨fun _ => Or.inr (Or.inr (Or.inl h3)), fun _ => rfl⟩
    · exact ⟨fun _ => Or.inr (Or.inr (Or.inr (Or.inl h4))), fun _ => rfl⟩
    · exact ⟨fun _ => Or.inr (Or.inr (Or.inr (Or.inr (Or.inl h5)))), fun _ => rfl⟩
    · exact ⟨fun _ => Or.inr (Or.inr (Or.inr (Or.inr (Or.inr (Or.inl h6))))), fun _ => rfl⟩
    · exact ⟨fun _ => Or.inr (Or.inr (Or.inr (Or.inr (Or.inr (Or.inr (Or.inl h7)))))),
        fun _ => rfl⟩
    · exact ⟨fun _ => Or.inr (Or.inr (Or.inr (Or.inr (Or.inr (Or.inr (Or.inr h8)))))),
        fun _ => rfl⟩
    · constructor
      · intro h; simp at h
      · rintro (h | h | h | h | h | h | h | h)
        exacts [absurd h h1, absurd h h2, absurd h h3, absurd h h4, absurd h h5, absurd h h6,
          absurd h h7, absurd h h8]
  · intro s sender body hreg hw
    rcases hfind : s.users.find? (fun u => u.number = sender) with _ | u
    · rw [hfind] at hreg; simp at hreg
    · unfold processMessage
      rw [hfind]
      unfold dispatchRegistered
      rw [hw]
  · intro s sender body w rest hreg hw hcw
    rcases hfind : s.users.find? (fun u => u.number = sender) with _ | u
    · rw [hfind] at hreg; simp at hreg
    · unfold processMessage
      rw [hfind]
      unfold dispatchRegistered
      rw [hw]
      simp only [hcw]

/-- Witness for C3 at concrete inputs: a registered user, an all-whitespace
body, and a body starting with an unknown word. -/
theorem c3_command_parsing_witness :
    (commandOfWord "NaMe").isSome ∧
    processMessage
        ⟨[⟨"+15551110000", "W"⟩], [], [], [], [], [], [], [], 0, 0, 0⟩ "+15551110000" "  " =
      ⟨⟨[⟨"+15551110000", "W"⟩], [], [], [], [], [], [], [], 0, 0, 0⟩, commandHint .h, []⟩ ∧
    processMessage
        ⟨[⟨"+15551110000", "W"⟩], [], [], [], [], [], [], [], 0, 0, 0⟩ "+15551110000" "foo bar" =
      ⟨⟨[⟨"+15551110000", "W"⟩], [], [], [], [], [], [], [], 0, 0, 0⟩,
        "We didn't recognize that command word: \"foo\".\n" ++ commandHint .h, []⟩ := by
  refine ⟨?_, ?_, ?_⟩
  · exact (c3_command_parsing.1 "NaMe").mpr (by decide)
  · exact c3_command_parsing.2.1 _ "+15551110000" "  " (by decide) (by decide)
  · exact c3_command_parsing.2.2 _ "+15551110000" "foo bar" "foo" ["bar"] (by decide) (by decide)
      (by decide)

/-! ## C5 -/

/-- **C5.** With no pending action on file, `confirm` (any non-empty
selection) returns the fixed "nothing to confirm" reply, commits no
transaction and leaves the store unchanged; doing it twice gives the same
reply both times and still leaves the store unchanged. -/
theorem c5_confirm_nothing_pending (s : Store) (sender sel : String) (_hsel : sel ≠ "")
    (hnone : s.pending_actions.find? (fun r => r.submitter_number = sender) = none) :
    handleConfirm s sender sel = ⟨s, "No pending actions to confirm.", []⟩ ∧
    handleConfirm (handleConfirm s sender sel).store sender sel =
      ⟨s, "No pending actions to confirm.", []⟩ := by
  have h1 : handleConfirm s sender sel = ⟨s, "No pending actions to confirm.", []⟩ := by
    unfold handleConfirm
    rw [hnone]
  refine ⟨h1, ?_⟩
  rw [h1]
  unfold handleConfirm
  rw [hnone]

theorem c5_confirm_nothing_pending_witness :
    handleConfirm ⟨[⟨"+15551110000", "W"⟩], [], [], [], [], [], [], [], 0, 0, 0⟩
        "+15551110000" "1" =
      ⟨⟨[⟨"+15551110000", "W"⟩], [], [], [], [], [], [], [], 0, 0, 0⟩,
        "No pending actions to confirm.", []⟩ :=
  (c5_confirm_nothing_pending ⟨[⟨"+15551110000", "W"⟩], [], [], [], [], [], [], [], 0, 0, 0⟩
    "+15551110000" "1" (by decide) (by decide)).1

/-! ## C8 -/

/-- **C8.** The `name` command with an empty argument replies with the `name`
usage text; with an argument of 21 or more characters it replies with the
message stating the (byte) length and the 20-character limit; both leave the
store — in particular the user's row — unchanged and commit nothing. -/
theorem c8_name_validation (s : Store) (sender : String) (ws : List String) :
    (joinWith " " ws = "" →
      dispatchCommand s sender .name ws = ⟨s, commandUsage .name, []⟩) ∧
    (21 ≤ (joinWith " " ws).length →
      dispatchCommand s sender .name ws =
        ⟨s, "That name is " ++ rustNatToString (utf8Len (joinWith " " ws)) ++
          " characters long.\nPlease shorten it to 20 characters or less.", []⟩) := by
  constructor
  · intro hempty
    unfold dispatchCommand processName
    rw [if_pos hempty]
  · intro hlen
    have hne : ¬ joinWith " " ws = "" := by
      intro he
      rw [he] at hlen
      simp [String.length] at hlen
    have hbytes : 20 < utf8Len (joinWith " " ws) := by
      have := length_le_utf8Len (joinWith " " ws)
      omega
    unfold dispatchCommand processName
    rw [if_neg hne, if_pos hbytes]

theorem c8_name_validation_witness :
    dispatchCommand ⟨[⟨"+15551110000", "W"⟩], [], [], [], [], [], [], [], 0, 0, 0⟩
        "+15551110000" .name [] =
      ⟨⟨[⟨"+15551110000", "W"⟩], [], [], [], [], [], [], [], 0, 0, 0⟩,
        commandUsage .name, []⟩ ∧
    dispatchCommand ⟨[⟨"+15551110000", "W"⟩], [], [], [], [], [], [], [], 0, 0, 0⟩
        "+15551110000" .name ["abcdefghijklmnopqrstu"] =
      ⟨⟨[⟨"+15551110000", "W"⟩], [], [], [], [], [], [], [], 0, 0, 0⟩,
        "That name is 21 characters long.\nPlease shorten it to 20 characters or less.", []⟩ := by
  constructor
  · exact (c8_name_validation _ "+15551110000" []).1 (by decide)
  · have h := (c8_name_validation
      ⟨[⟨"+15551110000", "W"⟩], [], [], [], [], [], [], [], 0, 0, 0⟩
      "+15551110000" ["abcdefghijklmnopqrstu"]).2 (by decide)
    rw [h]
    decide

/-! ## C1 -/

/-- The claim's index mapping for a selection token against groups `G` and
contacts `C`: a parsed index `i` with `1 ≤ i ≤ n` selects `G[i-1]`. -/
def delClaimGroup (G : List GroupRecord) (t : String) : Option GroupRecord :=
  (parseUsize t).bind (fun i => if 1 ≤ i ∧ i ≤ G.length then G[i - 1]? else none)

/-- The claim's index mapping: `n < i ≤ n + m` selects `C[i-n-1]`. -/
def delClaimContact (G : List GroupRecord) (C : List ContactRow) (t : String) :
    Option ContactRow :=
  (parseUsize t).bind (fun i =>
    if G.length < i ∧ i ≤ G.length + C.length then C[i - G.length - 1]? else none)

/-- The claim's invalid-token report: non-numeric tokens and indices outside
`[1, n+m]` each produce their own message. -/
def delClaimInvalid (G : List GroupRecord) (C : List ContactRow) (t : String) :
    Option String :=
  match parseUsize t with
  | some i =>
    if i = 0 then some ("Invalid selection: " ++ t)
    else if i ≤ G.length + C.length then none
    else some ("Invalid selection: " ++ rustNatToString i)
  | none => some ("Invalid selection: " ++ t)

theorem delClass_pointwise (G : List GroupRecord) (C : List ContactRow) (t : String) :
    triA (delClass G C) t = delClaimGroup G t ∧
    triB (delClass G C) t = delClaimContact G C t ∧
    triC (delClass G C) t = delClaimInvalid G C t := by
  unfold triA triB triC delClass delClaimGroup delClaimContact delClaimInvalid
  cases hp : parseUsize t with
  | none => simp
  | some i =>
    simp only [Option.bind_eq_bind, Option.some_bind]
    by_cases hi : i > 0
    · rw [if_pos hi]
      by_cases hg : i - 1 < G.length
      · rw [if_pos hg]
        have he : G[i - 1]? = some (G.getD (i - 1) default) :=
          getElemQ_eq_some_getD default G (i - 1) hg
        refine ⟨?_, ?_, ?_⟩
        · rw [if_pos (by omega), he]
        · rw [if_neg (by omega)]
        · rw [if_neg (by omega), if_pos (by omega)]
      · rw [if_neg hg]
        by_cases hc : i - 1 < G.length + C.length
        · rw [if_pos hc]
          have he : C[i - G.length - 1]? = some (C.getD (i - 1 - G.length) default) := by
            have : i - G.length - 1 = i - 1 - G.length := by omega
            rw [this]
            exact getElemQ_eq_some_getD default C (i - 1 - G.length) (by omega)
          refine ⟨?_, ?_, ?_⟩
          · rw [if_neg (by omega)]
          · rw [if_pos (by omega), he]
          · rw [if_neg (by omega), if_pos (by omega)]
        · rw [if_neg hc]
          have hi1 : i - 1 + 1 = i := by omega
          refine ⟨?_, ?_, ?_⟩
          · rw [if_neg (by omega)]
          · rw [if_neg (by omega)]
          · rw [if_neg (by omega), if_neg (by omega), hi1]
    · rw [if_neg hi]
      have hz : i = 0 := by omega
      refine ⟨?_, ?_, ?_⟩
      · rw [if_neg (by omega)]
      · rw [if_neg (by omega)]
      · rw [if_pos hz]

/-- **C1.** The deletion confirm re-derives the candidate lists `G` (groups,
name order) and `C` (contacts, name order) and classifies every
comma-separated token independently: a token whose parsed index `i` satisfies
`1 ≤ i ≤ n` selects `G[i-1]`, one with `n < i ≤ n+m` selects `C[i-n-1]`, and
every other token (non-numeric, zero, or out of range) contributes exactly
its own invalid-token report, without aborting the rest of the batch. -/
theorem c1_deletion_confirm_index_mapping (s : Store) (sender sel : String) :
    confirmDeletionParts s sender sel =
      ((tokensOf sel).filterMap (delClaimGroup (deletionGroups s sender)),
       (tokensOf sel).filterMap
         (delClaimContact (deletionGroups s sender) (deletionContacts s sender)),
       (tokensOf sel).filterMap
         (delClaimInvalid (deletionGroups s sender) (deletionContacts s sender))) := by
  unfold confirmDeletionParts
  rw [triFold_eq]
  have hA : triA (delClass (deletionGroups s sender) (deletionContacts s sender)) =
      delClaimGroup (deletionGroups s sender) :=
    funext (fun t => (delClass_pointwise _ _ t).1)
  have hB : triB (delClass (deletionGroups s sender) (deletionContacts s sender)) =
      delClaimContact (deletionGroups s sender) (deletionContacts s sender) :=
    funext (fun t => (delClass_pointwise _ _ t).2.1)
  have hC : triC (delClass (deletionGroups s sender) (deletionContacts s sender)) =
      delClaimInvalid (deletionGroups s sender) (deletionContacts s sender) :=
    funext (fun t => (delClass_pointwise _ _ t).2.2)
  rw [hA, hB, hC]

/-! ## C7 -/

theorem runOps_insertMembers (gid : Nat) :
    ∀ (cs : List ContactRow) (st : Store),
      runOps st (cs.map (fun c => WriteOp.insertGroupMember gid c.contact_user_number)) =
        { st with group_members :=
            st.group_members ++ cs.map (fun c => ⟨gid, c.contact_user_number⟩) } := by
  intro cs
  induction cs with
  | nil => intro st; simp [runOps]
  | cons c t ih =>
    intro st
    simp only [List.map_cons, runOps, List.foldl_cons] at ih ⊢
    rw [ih]
    simp [applyWrite, List.append_assoc]

/-- Shared description of the store after `create_group` (used by the claims
about group creation). -/
theorem createGroup_store (s : Store) (sender : String) (contacts : List ContactRow)
    (invalid : List String) :
    (createGroup s sender contacts invalid).store.groups =
      s.groups ++
        [⟨s.next_group_id, sender, gname (firstUnusedGroupNum (usedGroupNames s sender))⟩] ∧
    (createGroup s sender contacts invalid).store.group_members =
      s.group_members ++ contacts.map (fun c => ⟨s.next_group_id, c.contact_user_number⟩) ∧
    (createGroup s sender contacts invalid).store.pending_actions =
      s.pending_actions.filter (fun r => r.submitter_number ≠ sender) := by
  have hstore : (createGroup s sender contacts invalid).store =
      applyWrite
        (runOps
          (applyWrite s
            (WriteOp.insertGroup (gname (firstUnusedGroupNum (usedGroupNames s sender))) sender))
          (contacts.map (fun c => WriteOp.insertGroupMember s.next_group_id c.contact_user_number)))
        (WriteOp.deletePendingActions sender) := by
    show runOps s (createGroupOps s sender contacts) = _
    unfold createGroupOps runOps
    simp [List.foldl_append]
  refine ⟨?_, ?_, ?_⟩ <;> rw [hstore, runOps_insertMembers] <;> simp [applyWrite]

/-- **C7.** `create_group` names the new group `group<N>` for the least
`N ≥ 0` whose name the creator does not already use, and — in its single
transaction — appends the Group row, one GroupMember row per resolved contact
keyed by the contact's phone number, and deletes the submitter's pending
action. -/
theorem c7_create_group (s : Store) (sender : String) (contacts : List ContactRow)
    (invalid : List String) :
    (gname (firstUnusedGroupNum (usedGroupNames s sender)) ∉ usedGroupNames s sender ∧
      ∀ m < firstUnusedGroupNum (usedGroupNames s sender), gname m ∈ usedGroupNames s sender) ∧
    (createGroup s sender contacts invalid).store.groups =
      s.groups ++
        [⟨s.next_group_id, sender, gname (firstUnusedGroupNum (usedGroupNames s sender))⟩] ∧
    (createGroup s sender contacts invalid).store.group_members =
      s.group_members ++ contacts.map (fun c => ⟨s.next_group_id, c.contact_user_number⟩) ∧
    (createGroup s sender contacts invalid).store.pending_actions =
      s.pending_actions.filter (fun r => r.submitter_number ≠ sender) ∧
    (createGroup s sender contacts invalid).txns = [createGroupOps s sender contacts] := by
  have h := createGroup_store s sender contacts invalid
  exact ⟨firstUnusedGroupNum_spec (usedGroupNames s sender), h.1, h.2.1, h.2.2, rfl⟩

theorem c7_create_group_witness :
    (createGroup ⟨[⟨"+15551110000", "W"⟩], [⟨0, "+15551110000", "John", "+15552220000"⟩],
        [⟨0, "+15551110000", "group0"⟩], [], [⟨"+15551110000", "group"⟩], [], [], [], 1, 1, 0⟩
      "+15551110000" [⟨0, "+15551110000", "John", "+15552220000"⟩] []).store.groups =
      [⟨0, "+15551110000", "group0"⟩, ⟨1, "+15551110000", "group1"⟩] ∧
    gname 1 ∉ usedGroupNames ⟨[⟨"+15551110000", "W"⟩],
      [⟨0, "+15551110000", "John", "+15552220000"⟩], [⟨0, "+15551110000", "group0"⟩], [],
      [⟨"+15551110000", "group"⟩], [], [], [], 1, 1, 0⟩ "+15551110000" := by
  have h := c7_create_group
    ⟨[⟨"+15551110000", "W"⟩], [⟨0, "+15551110000", "John", "+15552220000"⟩],
      [⟨0, "+15551110000", "group0"⟩], [], [⟨"+15551110000", "group"⟩], [], [], [], 1, 1, 0⟩
    "+15551110000" [⟨0, "+15551110000", "John", "+15552220000"⟩] []
  refine ⟨?_, ?_⟩
  · rw [h.2.1]
    decide
  · have h1 := h.1.1
    have he : firstUnusedGroupNum (usedGroupNames
        ⟨[⟨"+15551110000", "W"⟩], [⟨0, "+15551110000", "John", "+15552220000"⟩],
          [⟨0, "+15551110000", "group0"⟩], [], [⟨"+15551110000", "group"⟩], [], [], [], 1, 1, 0⟩
        "+15551110000") = 1 := by decide
    rw [he] at h1
    exact h1

/-! ## C10 -/

/-- A selection token that resolves to no candidate in the `group` confirm:
non-numeric, zero, or past the end of the candidate list. -/
def groupTokenFails (s : Store) (sender t : String) : Prop :=
  match parseUsize t with
  | some i => i = 0 ∨ (groupCandidates s sender).length < i
  | none => True

instance (s : Store) (sender t : String) : Decidable (groupTokenFails s sender t) :=
  match hp : parseUsize t with
  | some i =>
    decidable_of_iff (i = 0 ∨ (groupCandidates s sender).length < i)
      (by unfold groupTokenFails; rw [hp])
  | none => isTrue (by unfold groupTokenFails; rw [hp]; trivial)

theorem groupClass_fails_b (s : Store) (sender t : String) (h : groupTokenFails s sender t) :
    ∃ m, groupClass s sender t = Duo.b m := by
  unfold groupTokenFails at h
  unfold groupClass
  cases hp : parseUsize t with
  | none => exact ⟨_, rfl⟩
  | some i =>
    rw [hp] at h
    dsimp only
    by_cases hi : i > 0
    · rw [if_pos hi]
      have hlen : (groupCandidates s sender).length ≤ i - 1 := by omega
      rw [List.getElem?_eq_none hlen]
      exact ⟨_, rfl⟩
    · rw [if_neg hi]
      exact ⟨_, rfl⟩

theorem groupClass_fails (s : Store) (sender t : String) (h : groupTokenFails s sender t) :
    duoA (groupClass s sender) t = none ∧ ∃ m, duoB (groupClass s sender) t = some m := by
  rcases groupClass_fails_b s sender t h with ⟨m, hm⟩
  constructor
  · unfold duoA
    rw [hm]
  · exact ⟨m, by unfold duoB; rw [hm]⟩

/-- **C10.** With a `group` pending action on file, a confirm whose tokens
all fail to resolve still proceeds to group creation: a fresh `group<N>` row
with zero members is created, the invalid tokens are reported in the reply,
and the pending action is cleared. -/
theorem c10_group_confirm_all_invalid (s : Store) (sender sel : String)
    (pa : PendingActionRow)
    (hfind : s.pending_actions.find? (fun r => r.submitter_number = sender) = some pa)
    (htype : pa.action_type = "group")
    (hfail : ∀ t ∈ tokensOf sel, groupTokenFails s sender t) :
    (handleConfirm s sender sel).store.groups =
      s.groups ++
        [⟨s.next_group_id, sender, gname (firstUnusedGroupNum (usedGroupNames s sender))⟩] ∧
    (handleConfirm s sender sel).store.group_members = s.group_members ∧
    (handleConfirm s sender sel).store.pending_actions =
      s.pending_actions.filter (fun r => r.submitter_number ≠ sender) ∧
    (tokensOf sel).filterMap (duoB (groupClass s sender)) ≠ [] ∧
    (handleConfirm s sender sel).reply =
      "Created group \"" ++ gname (firstUnusedGroupNum (usedGroupNames s sender)) ++
        "\" with " ++ rustNatToString 0 ++ " members:\n" ++
        ("\nErrors:\n" ++
          joinWith "\n" ((tokensOf sel).filterMap (duoB (groupClass s sender)))) := by
  have hconf : handleConfirm s sender sel = confirmGroup s sender sel := by
    unfold handleConfirm
    rw [hfind]
    dsimp only
    rw [htype, if_neg (by decide), if_neg (by decide), if_pos rfl]
  have hparts : confirmGroupParts s sender sel =
      ([], (tokensOf sel).filterMap (duoB (groupClass s sender))) := by
    unfold confirmGroupParts
    rw [duoFold_eq]
    have : (tokensOf sel).filterMap (duoA (groupClass s sender)) = [] := by
      rw [List.filterMap_eq_nil_iff]
      intro t ht
      exact (groupClass_fails s sender t (hfail t ht)).1
    rw [this]
  have herrne : (tokensOf sel).filterMap (duoB (groupClass s sender)) ≠ [] := by
    rcases hcons : tokensOf sel with _ | ⟨t, rest⟩
    · exact absurd hcons (tokensOf_ne_nil sel)
    · have hmem : t ∈ tokensOf sel := by rw [hcons]; exact List.mem_cons_self t rest
      rcases (groupClass_fails s sender t (hfail t hmem)).2 with ⟨m, hm⟩
      rw [List.filterMap_cons, hm]
      simp
  have hcg : handleConfirm s sender sel =
      createGroup s sender [] ((tokensOf sel).filterMap (duoB (groupClass s sender))) := by
    rw [hconf]
    unfold confirmGroup
    rw [hparts]
  have hst := createGroup_store s sender [] ((tokensOf sel).filterMap (duoB (groupClass s sender)))
  refine ⟨?_, ?_, ?_, herrne, ?_⟩
  · rw [hcg, hst.1]
  · rw [hcg, hst.2.1]; simp
  · rw [hcg, hst.2.2]
  · rw [hcg]
    show "Created group \"" ++ _ ++ "\" with " ++ rustNatToString 0 ++ " members:\n" ++
        strConcat [] ++ _ = _
    rw [if_neg herrne]
    have hsc : strConcat ([] : List String) = "" := rfl
    rw [hsc, String.append_empty]

theorem c10_group_confirm_all_invalid_witness :
    (handleConfirm ⟨[⟨"+15551110000", "W"⟩], [⟨0, "+15551110000", "John", "+15552220000"⟩],
        [], [], [⟨"+15551110000", "group"⟩], [], [⟨"+15551110000", 0⟩], [], 1, 0, 0⟩
      "+15551110000" "0, 5, x").store.groups = [⟨0, "+15551110000", "group0"⟩] ∧
    (handleConfirm ⟨[⟨"+15551110000", "W"⟩], [⟨0, "+15551110000", "John", "+15552220000"⟩],
        [], [], [⟨"+15551110000", "group"⟩], [], [⟨"+15551110000", 0⟩], [], 1, 0, 0⟩
      "+15551110000" "0, 5, x").store.pending_actions = [] ∧
    (handleConfirm ⟨[⟨"+15551110000", "W"⟩], [⟨0, "+15551110000", "John", "+15552220000"⟩],
        [], [], [⟨"+15551110000", "group"⟩], [], [⟨"+15551110000", 0⟩], [], 1, 0, 0⟩
      "+15551110000" "0, 5, x").reply =
      "Created group \"group0\" with 0 members:\n\nErrors:\nInvalid number: 0\nInvalid selection: 5\nInvalid number: x" := by
  have h := c10_group_confirm_all_invalid
    ⟨[⟨"+15551110000", "W"⟩], [⟨0, "+15551110000", "John", "+15552220000"⟩],
      [], [], [⟨"+15551110000", "group"⟩], [], [⟨"+15551110000", 0⟩], [], 1, 0, 0⟩
    "+15551110000" "0, 5, x" ⟨"+15551110000", "group"⟩ (by decide) (by decide) (by decide)
  refine ⟨?_, ?_, ?_⟩
  · rw [h.1]; decide
  · rw [h.2.2.1]; decide
  · rw [h.2.2.2.2]; decide

/-! ## C6 -/

/-- A store with a `deferred_contacts` pending action and two deferred
contacts, one of whose names contains `" ("`. -/
def deferredBugStore : Store :=
  { users := [⟨"+15551234567", "U"⟩], contacts := [], groups := [], group_members := [],
    pending_actions := [⟨"+15551234567", "deferred_contacts"⟩], pending_deletions := [],
    pending_group_members := [],
    deferred_contacts :=
      [⟨0, "+15551234567", "Bob (cell)", "+15550000001", none⟩,
       ⟨1, "+15551234567", "Bob (cell)", "+15550000002", none⟩,
       ⟨2, "+15551234567", "Bob", "+15550000003", none⟩,
       ⟨3, "+15551234567", "Bob", "+15550000004", none⟩],
    next_contact_id := 0, next_group_id := 0, next_deferred_id := 4 }

/-- **C6 (bug evaluation).** Confirming `"2a"` resolves the deferred contact
`"Bob (cell)"` (the 2nd distinct name) and inserts its Contact row, but the
cleanup recovers the name from the display string with `split(" (")`,
obtaining `"Bob"`: the resolved name's two deferred rows are NOT deleted, the
unresolved contact `"Bob"`'s rows ARE deleted, and the pending action stays
although the claim expects the resolved rows purged. -/
theorem c6_deferred_cleanup_split_bug :
    (confirmDeferred deferredBugStore "+15551234567" "2a").reply =
      "Successfully added 1 contact:\n• Bob (cell) (+15550000001)\n" ∧
    (confirmDeferred deferredBugStore "+15551234567" "2a").store.contacts =
      [⟨0, "+15551234567", "Bob (cell)", "+15550000001"⟩] ∧
    (confirmDeferred deferredBugStore "+15551234567" "2a").store.deferred_contacts =
      [⟨0, "+15551234567", "Bob (cell)", "+15550000001", none⟩,
       ⟨1, "+15551234567", "Bob (cell)", "+15550000002", none⟩] ∧
    (confirmDeferred deferredBugStore "+15551234567" "2a").store.pending_actions =
      [⟨"+15551234567", "deferred_contacts"⟩] := by
  refine ⟨?_, ?_, ?_, ?_⟩ <;> decide

/-! ## C4 -/

/-- At most one pending action row per submitter: pairwise distinct
submitter numbers. -/
def paUniq (s : Store) : Prop :=
  s.pending_actions.Pairwise (fun a b => a.submitter_number ≠ b.submitter_number)

instance (s : Store) : Decidable (paUniq s) := by
  unfold paUniq
  infer_instance

theorem paListUniq_filter (l : List PendingActionRow) (p : PendingActionRow → Bool)
    (h : l.Pairwise (fun a b => a.submitter_number ≠ b.submitter_number)) :
    (l.filter p).Pairwise (fun a b => a.submitter_number ≠ b.submitter_number) :=
  h.sublist (List.filter_sublist l)

theorem paListUniq_set (l : List PendingActionRow) (sub at_ : String)
    (h : l.Pairwise (fun a b => a.submitter_number ≠ b.submitter_number)) :
    ((l.filter (fun r => r.submitter_number ≠ sub)) ++
        [(⟨sub, at_⟩ : PendingActionRow)]).Pairwise
      (fun a b => a.submitter_number ≠ b.submitter_number) := by
  rw [List.pairwise_append]
  refine ⟨paListUniq_filter l _ h, List.pairwise_singleton _ _, ?_⟩
  intro a ha b hb
  rw [List.mem_singleton] at hb
  subst hb
  have hd := List.of_mem_filter ha
  exact of_decide_eq_true hd

/-- The two statements of `set_pending_action`, applied in order, replace the
submitter's pending-action row. -/
theorem runOps_setPA (st : Store) (sub at_ : String) :
    (runOps st (setPendingActionOps sub at_)).pending_actions =
      st.pending_actions.filter (fun r => r.submitter_number ≠ sub) ++ [⟨sub, at_⟩] := rfl

theorem runOps_pa_of_all :
    ∀ (ops : List WriteOp),
      (∀ w ∈ ops, ∀ st : Store, (applyWrite st w).pending_actions = st.pending_actions) →
      ∀ st : Store, (runOps st ops).pending_actions = st.pending_actions := by
  intro ops
  induction ops with
  | nil => intro _ st; rfl
  | cons w t ih =>
    intro h st
    have hw := h w (List.mem_cons_self w t)
    have ht := ih (fun x hx => h x (List.mem_cons_of_mem w hx))
    show (runOps (applyWrite st w) t).pending_actions = st.pending_actions
    rw [ht, hw]

theorem runOps_append_eq (st : Store) (l1 l2 : List WriteOp) :
    runOps st (l1 ++ l2) = runOps (runOps st l1) l2 := by
  unfold runOps
  rw [List.foldl_append]

theorem paUniq_of_pa_eq {s s' : Store}
    (h : s'.pending_actions = s.pending_actions) (hu : paUniq s) : paUniq s' := by
  unfold paUniq at hu ⊢
  rw [h]
  exact hu

/-- Setting a pending action and then running statements that do not touch
the `pending_actions` table preserves the invariant (and establishes it for
the submitter). -/
theorem paUniq_set_then (s : Store) (sub at_ : String) (ops : List WriteOp)
    (hops : ∀ w ∈ ops, ∀ st : Store, (applyWrite st w).pending_actions = st.pending_actions)
    (h : paUniq s) : paUniq (runOps s (setPendingActionOps sub at_ ++ ops)) := by
  unfold paUniq
  rw [runOps_append_eq, runOps_pa_of_all ops hops, runOps_setPA]
  exact paListUniq_set _ sub at_ h

theorem addContact_pa (st : Store) (sender nm num : String) :
    (addContact st sender nm num).1.pending_actions = st.pending_actions := by
  unfold addContact
  cases st.contacts.find? (fun c => c.submitter_number = sender ∧ c.contact_name = nm) with
  | none => rfl
  | some c =>
    dsimp only
    split_ifs <;> rfl

theorem handleGroup_paUniq (s : Store) (sender names : String) (h : paUniq s) :
    paUniq (handleGroup s sender names).store := by
  unfold handleGroup
  dsimp only
  split_ifs with h1 h2
  · exact h
  · exact h
  · refine paUniq_set_then s sender "group" _ ?_ h
    intro w hw st
    rcases List.mem_map.mp hw with ⟨c, _, rfl⟩
    rfl

theorem handleDelete_paUniq (s : Store) (sender nameArg : String) (h : paUniq s) :
    paUniq (handleDelete s sender nameArg).store := by
  unfold handleDelete
  dsimp only
  by_cases h1 : deleteGroupsFound s sender nameArg = [] ∧ deleteContactsFound s sender nameArg = []
  · rw [if_pos h1]
    exact h
  · rw [if_neg h1]
    dsimp only
    rw [show setPendingActionOps sender "deletion" ++
        (deleteGroupsFound s sender nameArg).map
          (fun g => WriteOp.insertPendingDeletion sender (some g.id) none) ++
        (deleteContactsFound s sender nameArg).map
          (fun c => WriteOp.insertPendingDeletion sender none (some c.id)) =
      setPendingActionOps sender "deletion" ++
        ((deleteGroupsFound s sender nameArg).map
          (fun g => WriteOp.insertPendingDeletion sender (some g.id) none) ++
        (deleteContactsFound s sender nameArg).map
          (fun c => WriteOp.insertPendingDeletion sender none (some c.id))) from
      by rw [List.append_assoc]]
    refine paUniq_set_then s sender "deletion" _ ?_ h
    intro w hw st
    rcases List.mem_append.mp hw with hw | hw
    · rcases List.mem_map.mp hw with ⟨g, _, rfl⟩; rfl
    · rcases List.mem_map.mp hw with ⟨c, _, rfl⟩; rfl

theorem createGroup_paUniq (s : Store) (sender : String) (contacts : List ContactRow)
    (invalid : List String) (h : paUniq s) :
    paUniq (createGroup s sender contacts invalid).store := by
  unfold paUniq
  rw [(createGroup_store s sender contacts invalid).2.2]
  exact paListUniq_filter _ _ h

theorem confirmDeletion_paUniq (s : Store) (sender sel : String) (h : paUniq s) :
    paUniq (confirmDeletion s sender sel).store := by
  unfold confirmDeletion
  dsimp only
  by_cases h1 : (confirmDeletionParts s sender sel).1 = [] ∧
      (confirmDeletionParts s sender sel).2.1 = [] ∧ (confirmDeletionParts s sender sel).2.2 = []
  · rw [if_pos h1]
    exact h
  · rw [if_neg h1]
    dsimp only
    unfold paUniq
    rw [runOps_append_eq]
    have hmid : ∀ st : Store,
        (runOps st
          ((confirmDeletionParts s sender sel).1.map (fun g => WriteOp.deleteGroupById g.id) ++
            (confirmDeletionParts s sender sel).2.1.map
              (fun c => WriteOp.deleteContactById c.id))).pending_actions =
          st.pending_actions := by
      intro st
      refine runOps_pa_of_all _ ?_ st
      intro w hw st'
      rcases List.mem_append.mp hw with hw | hw
      · rcases List.mem_map.mp hw with ⟨g, _, rfl⟩; rfl
      · rcases List.mem_map.mp hw with ⟨c, _, rfl⟩; rfl
    show ((runOps _ [WriteOp.deletePendingActions sender]).pending_actions).Pairwise _
    have : (runOps
        (runOps s
          ((confirmDeletionParts s sender sel).1.map (fun g => WriteOp.deleteGroupById g.id) ++
            (confirmDeletionParts s sender sel).2.1.map
              (fun c => WriteOp.deleteContactById c.id)))
        [WriteOp.deletePendingActions sender]).pending_actions =
        ((runOps s
          ((confirmDeletionParts s sender sel).1.map (fun g => WriteOp.deleteGroupById g.id) ++
            (confirmDeletionParts s sender sel).2.1.map
              (fun c => WriteOp.deleteContactById c.id))).pending_actions).filter
          (fun r => r.submitter_number ≠ sender) := rfl
    rw [this, hmid]
    exact paListUniq_filter _ _ h

theorem confirmDeferredLoop_pa (sender : String) (names : List String) :
    ∀ (toks : List String) (acc : Store × List String × List String × List (List WriteOp)),
      (toks.foldl (deferredLoopStep sender names) acc).1.pending_actions =
        acc.1.pending_actions := by
  intro toks
  induction toks with
  | nil => intro acc; rfl
  | cons t ts ih =>
    intro acc
    rw [List.foldl_cons, ih]
    unfold deferredLoopStep
    cases deferredClass acc.1 sender names t with
    | a p => exact addContact_pa acc.1 sender p.1 p.2
    | b m => rfl

theorem confirmDeferred_paUniq (s : Store) (sender sel : String) (h : paUniq s) :
    paUniq (confirmDeferred s sender sel).store := by
  unfold confirmDeferred
  dsimp only
  have hloop : (confirmDeferredLoop s sender sel).1.pending_actions = s.pending_actions :=
    confirmDeferredLoop_pa sender (distinctDeferredNames s sender) (tokensOf sel) (s, [], [], [])
  unfold deferredCleanupOps
  dsimp only
  have hdels : ∀ st : Store,
      (runOps st ((confirmDeferredLoop s sender sel).2.1.filterMap (fun entry =>
        (rustSplitStr " (" entry).head?.map
          (fun nm => WriteOp.deleteDeferredByName sender nm)))).pending_actions =
        st.pending_actions := by
    intro st
    refine runOps_pa_of_all _ ?_ st
    intro w hw st'
    rcases List.mem_filterMap.mp hw with ⟨entry, _, hmap⟩
    rcases Option.map_eq_some'.mp hmap with ⟨nm, _, rfl⟩
    rfl
  split_ifs with hcount
  · unfold paUniq
    rw [runOps_append_eq]
    have : (runOps
        (runOps (confirmDeferredLoop s sender sel).1
          ((confirmDeferredLoop s sender sel).2.1.filterMap (fun entry =>
            (rustSplitStr " (" entry).head?.map
              (fun nm => WriteOp.deleteDeferredByName sender nm))))
        [WriteOp.deletePendingActions sender]).pending_actions =
        ((runOps (confirmDeferredLoop s sender sel).1
          ((confirmDeferredLoop s sender sel).2.1.filterMap (fun entry =>
            (rustSplitStr " (" entry).head?.map
              (fun nm => WriteOp.deleteDeferredByName sender nm)))).pending_actions).filter
          (fun r => r.submitter_number ≠ sender) := rfl
    rw [this, hdels, hloop]
    exact paListUniq_filter _ _ h
  · unfold paUniq
    rw [hdels, hloop]
    exact h

theorem handleConfirm_paUniq (s : Store) (sender sel : String) (h : paUniq s) :
    paUniq (handleConfirm s sender sel).store := by
  unfold handleConfirm
  cases s.pending_actions.find? (fun r => r.submitter_number = sender) with
  | none => exact h
  | some act =>
    dsimp only
    split_ifs with h1 h2 h3
    · exact confirmDeferred_paUniq s sender sel h
    · exact confirmDeletion_paUniq s sender sel h
    · unfold confirmGroup
      exact createGroup_paUniq s sender _ _ h
    · exact h

theorem dispatchCommand_paUniq (s : Store) (sender : String) (c : Command)
    (rest : List String) (h : paUniq s) : paUniq (dispatchCommand s sender c rest).store := by
  unfold dispatchCommand
  cases c with
  | h => exact h
  | name =>
    cases processName rest with
    | ok nm => exact paUniq_of_pa_eq rfl h
    | error e => exact h
  | stop => exact paUniq_of_pa_eq rfl h
  | info =>
    cases rest.head? with
    | some t =>
      dsimp only
      cases commandOfWord t with
      | some c2 => exact h
      | none => exact h
    | none => exact h
  | contacts => exact h
  | delete =>
    dsimp only
    split_ifs with h1
    · exact h
    · exact handleDelete_paUniq s sender _ h
  | confirm =>
    dsimp only
    split_ifs with h1
    · exact h
    · exact handleConfirm_paUniq s sender _ h
  | group =>
    dsimp only
    split_ifs with h1
    · exact h
    · exact handleGroup_paUniq s sender _ h

theorem processMessage_paUniq (s : Store) (sender body : String) (h : paUniq s) :
    paUniq (processMessage s sender body).store := by
  unfold processMessage
  cases s.users.find? (fun u => u.number = sender) with
  | none =>
    unfold onboardNewUser
    dsimp only
    cases wordsOf body with
    | nil => exact h
    | cons w rest =>
      dsimp only
      split_ifs with h1
      · cases processName rest with
        | ok nm => exact paUniq_of_pa_eq rfl h
        | error e => exact h
      · exact h
  | some u =>
    unfold dispatchRegistered
    cases wordsOf body with
    | nil => exact h
    | cons w rest =>
      dsimp only
      cases commandOfWord w with
      | none => exact h
      | some c => exact dispatchCommand_paUniq s sender c rest h

theorem importRecord_paUniq (s : Store) (sender : String)
    (r : String × List (String × Option String)) (h : paUniq s) :
    paUniq (importRecord s sender r) := by
  rcases r with ⟨nm, nums⟩
  cases nums with
  | nil => exact h
  | cons p rest =>
    cases rest with
    | nil =>
      unfold importRecord
      exact paUniq_of_pa_eq (addContact_pa s sender nm p.1) h
    | cons q rest' =>
      unfold importRecord
      dsimp only
      unfold paUniq
      have hins : ∀ st : Store,
          (runOps st ((p :: q :: rest').map
            (fun pr => WriteOp.insertDeferred sender nm pr.1 pr.2))).pending_actions =
            st.pending_actions := by
        intro st
        refine runOps_pa_of_all _ ?_ st
        intro w hw st'
        rcases List.mem_map.mp hw with ⟨pr, _, rfl⟩
        rfl
      rw [hins, runOps_setPA]
      exact paListUniq_set _ _ _ h

theorem importVcard_paUniq (s : Store) (sender : String)
    (recs : List (String × List (String × Option String))) (h : paUniq s) :
    paUniq (importVcard s sender recs) := by
  unfold importVcard
  induction recs generalizing s with
  | nil => exact h
  | cons r rest ih =>
    rw [List.foldl_cons]
    exact ih (importRecord s sender r) (importRecord_paUniq s sender r h)

/-- **C4.** `set_pending_action` deletes any existing pending action of the
submitter and inserts the new one, in that order, inside the caller's
transaction, leaving exactly one row for the submitter; and every handler —
the whole text-message dispatch as well as the vCard import — preserves the
at-most-one-pending-action-per-submitter invariant. -/
theorem c4_one_pending_action_per_submitter :
    (∀ sub at_ : String,
      setPendingActionOps sub at_ =
        [WriteOp.deletePendingActions sub, WriteOp.insertPendingAction sub at_]) ∧
    (∀ (s : Store) (sub at_ : String),
      (runOps s (setPendingActionOps sub at_)).pending_actions =
        s.pending_actions.filter (fun r => r.submitter_number ≠ sub) ++ [⟨sub, at_⟩]) ∧
    (∀ (s : Store) (sender body : String),
      paUniq s → paUniq (processMessage s sender body).store) ∧
    (∀ (s : Store) (sender : String) (recs : List (String × List (String × Option String))),
      paUniq s → paUniq (importVcard s sender recs)) :=
  ⟨fun _ _ => rfl, runOps_setPA, processMessage_paUniq, importVcard_paUniq⟩

theorem c4_one_pending_action_per_submitter_witness :
    paUniq (processMessage
      ⟨[⟨"+15551110000", "W"⟩], [⟨0, "+15551110000", "John Smith", "+15552223333"⟩],
        [], [], [⟨"+15559998888", "group"⟩], [], [], [], 1, 0, 0⟩
      "+15551110000" "delete John").store ∧
    paUniq (importVcard
      ⟨[⟨"+15551110000", "W"⟩], [], [], [], [⟨"+15551110000", "deletion"⟩], [], [], [], 0, 0, 0⟩
      "+15551110000" [("Ann", [("+15550000001", none), ("+15550000002", some "work")])]) := by
  constructor
  · exact c4_one_pending_action_per_submitter.2.2.1
      ⟨[⟨"+15551110000", "W"⟩], [⟨0, "+15551110000", "John Smith", "+15552223333"⟩],
        [], [], [⟨"+15559998888", "group"⟩], [], [], [], 1, 0, 0⟩
      "+15551110000" "delete John" (by decide)
  · exact c4_one_pending_action_per_submitter.2.2.2
      ⟨[⟨"+15551110000", "W"⟩], [], [], [], [⟨"+15551110000", "deletion"⟩], [], [], [], 0, 0, 0⟩
      "+15551110000" [("Ann", [("+15550000001", none), ("+15550000002", some "work")])]
      (by decide)

/-! ## C2 -/

theorem addContact_deferred (st : Store) (sender nm num : String) :
    (addContact st sender nm num).1.deferred_contacts = st.deferred_contacts := by
  unfold addContact
  cases st.contacts.find? (fun c => c.submitter_number = sender ∧ c.contact_name = nm) with
  | none => rfl
  | some c =>
    dsimp only
    split_ifs <;> rfl

/-- Token resolution only reads the `deferred_contacts` table, so the
interleaved `add_contact` writes of the loop do not affect it. -/
theorem deferredClass_congr (st s0 : Store) (sender : String) (names : List String) (t : String)
    (h : st.deferred_contacts = s0.deferred_contacts) :
    deferredClass st sender names t = deferredClass s0 sender names t := by
  have hn : ∀ nm, deferredNumbersFor st sender nm = deferredNumbersFor s0 sender nm := by
    intro nm
    unfold deferredNumbersFor
    rw [h]
  unfold deferredClass
  simp only [hn]

/-- The deferred-confirm loop processes every token independently against the
initial store: its successful and failed accumulators are `filterMap`s of the
per-token classifier. -/
theorem confirmDeferredLoop_parts (s0 : Store) (sender : String) (names : List String) :
    ∀ (toks : List String) (st : Store) (succ failed : List String)
      (txns : List (List WriteOp)),
      st.deferred_contacts = s0.deferred_contacts →
      (toks.foldl (deferredLoopStep sender names) (st, succ, failed, txns)).2.1 =
        succ ++ toks.filterMap (fun t => (duoA (deferredClass s0 sender names) t).map
          (fun p => p.1 ++ " (" ++ p.2 ++ ")")) ∧
      (toks.foldl (deferredLoopStep sender names) (st, succ, failed, txns)).2.2.1 =
        failed ++ toks.filterMap (duoB (deferredClass s0 sender names)) := by
  intro toks
  induction toks with
  | nil => intro st succ failed txns _; simp
  | cons t ts ih =>
    intro st succ failed txns h
    rw [List.foldl_cons]
    have hstep : deferredLoopStep sender names (st, succ, failed, txns) t =
        match deferredClass s0 sender names t with
        | .a (nm, num) =>
          ((addContact st sender nm num).1, succ ++ [nm ++ " (" ++ num ++ ")"], failed,
            txns ++ (if (addContact st sender nm num).2 = [] then []
              else [(addContact st sender nm num).2]))
        | .b msg => (st, succ, failed ++ [msg], txns) := by
      unfold deferredLoopStep
      rw [deferredClass_congr st s0 sender names t h]
    rw [hstep]
    cases hc : deferredClass s0 sender names t with
    | a p =>
      rcases p with ⟨nm, num⟩
      dsimp only
      have hd : (addContact st sender nm num).1.deferred_contacts = s0.deferred_contacts := by
        rw [addContact_deferred]
        exact h
      have hih := ih (addContact st sender nm num).1 (succ ++ [nm ++ " (" ++ num ++ ")"]) failed
        (txns ++ (if (addContact st sender nm num).2 = [] then []
          else [(addContact st sender nm num).2])) hd
      constructor
      · rw [hih.1, List.filterMap_cons]
        unfold duoA
        rw [hc]
        dsimp only
        rw [List.append_assoc]
        rfl
      · rw [hih.2, List.filterMap_cons]
        unfold duoB
        rw [hc]
    | b m =>
      dsimp only
      have hih := ih st succ (failed ++ [m]) txns h
      constructor
      · rw [hih.1, List.filterMap_cons]
        unfold duoA
        rw [hc]
        rfl
      · rw [hih.2, List.filterMap_cons]
        unfold duoB
        rw [hc]
        dsimp only
        rw [List.append_assoc]
        rfl

/-- The claim's addressing rule for one deferred-confirm token: digits
followed by one lowercase letter; the digits select the contact name at that
1-based position among the distinct deferred names in alphabetical order; the
letter selects that name's candidate number by 0-indexed position
(`a` = 1st, `b` = 2nd, …); `"0a"`, out-of-range letters and malformed tokens
select nothing. -/
def deferredClaimSel (s : Store) (sender t : String) : Option (String × String) :=
  match t.data.getLast? with
  | some c =>
    if c.isLower ∧ t.data.dropLast ≠ [] ∧ t.data.dropLast.all Char.isDigit then
      match parseUsize (String.mk t.data.dropLast) with
      | some i =>
        if 1 ≤ i then
          match (distinctDeferredNames s sender)[i - 1]? with
          | some nm =>
            ((deferredNumbersFor s sender nm)[c.toNat - 97]?).map (fun num => (nm, num))
          | none => none
        else none
      | none => none
    else none
  | none => none

/-- The per-token rejection message of the source classifier. -/
def deferredRejectMsg (s : Store) (sender t : String) : String :=
  match deferredClass s sender (distinctDeferredNames s sender) t with
  | .b m => m
  | .a _ => ""

theorem deferredClass_claimSel (s : Store) (sender t : String) :
    duoA (deferredClass s sender (distinctDeferredNames s sender)) t =
      deferredClaimSel s sender t := by
  unfold duoA deferredClass deferredClaimSel
  cases hl : t.data.getLast? with
  | none => rfl
  | some c =>
    dsimp only
    by_cases hsh : (c.isLower : Prop) ∧ (t.data.dropLast.all Char.isDigit : Prop)
    · rw [if_neg (not_not_intro hsh)]
      by_cases hde : t.data.dropLast = []
      · have hp : parseUsize (String.mk t.data.dropLast) = none := by
          rw [hde]
          rfl
        rw [hp, if_neg (fun hcon => hcon.2.1 hde)]
      · rw [if_pos ⟨hsh.1, hde, hsh.2⟩]
        cases hp : parseUsize (String.mk t.data.dropLast) with
        | none => rfl
        | some i =>
          dsimp only
          by_cases hi : i > 0
          · rw [if_pos hi, if_pos (show 1 ≤ i by omega)]
            cases hn : (distinctDeferredNames s sender)[i - 1]? with
            | none => rfl
            | some nm =>
              dsimp only
              by_cases hx : c.toNat - 97 < (deferredNumbersFor s sender nm).length
              · rw [if_pos hx,
                  getElemQ_eq_some_getD "" (deferredNumbersFor s sender nm) (c.toNat - 97) hx]
                rfl
              · rw [if_neg hx, List.getElem?_eq_none (by omega)]
                rfl
          · rw [if_neg hi, if_neg (show ¬(1 ≤ i) by omega)]
    · rw [if_pos hsh]
      rw [if_neg (fun hcon => hsh ⟨hcon.1, hcon.2.2⟩)]

theorem deferredClass_claimErr (s : Store) (sender t : String) :
    duoB (deferredClass s sender (distinctDeferredNames s sender)) t =
      if (deferredClaimSel s sender t).isSome then none
      else some (deferredRejectMsg s sender t) := by
  have hA := deferredClass_claimSel s sender t
  cases hc : deferredClass s sender (distinctDeferredNames s sender) t with
  | a p =>
    unfold duoA at hA
    rw [hc] at hA
    rw [if_pos (by rw [← hA]; rfl)]
    unfold duoB
    rw [hc]
  | b m =>
    unfold duoA at hA
    rw [hc] at hA
    rw [if_neg (by rw [← hA]; simp)]
    unfold duoB deferredRejectMsg
    rw [hc]

/-- **C2.** The deferred-contacts confirm resolves every comma-separated
token independently: a token `<digits><lowercase letter>` whose digits give a
valid 1-based position among the distinct deferred names (alphabetical order)
and whose letter indexes an existing candidate number (`a` = 1st, 0-indexed)
contributes the resolved `"name (number)"` entry; every other token —
`"0a"`, a letter at or past the number of candidates, or a malformed shape —
contributes exactly its own rejection message, without stopping the batch. -/
theorem c2_deferred_confirm_token_mapping (s : Store) (sender sel : String) :
    confirmDeferredParts s sender sel =
      ((tokensOf sel).filterMap (fun t => (deferredClaimSel s sender t).map
        (fun p => p.1 ++ " (" ++ p.2 ++ ")")),
       (tokensOf sel).filterMap (fun t =>
         if (deferredClaimSel s sender t).isSome then none
         else some (deferredRejectMsg s sender t))) := by
  have h := confirmDeferredLoop_parts s sender (distinctDeferredNames s sender)
    (tokensOf sel) s [] [] [] rfl
  have hA : (fun t => (duoA (deferredClass s sender (distinctDeferredNames s sender)) t).map
      (fun p => p.1 ++ " (" ++ p.2 ++ ")")) =
      (fun t => (deferredClaimSel s sender t).map (fun p => p.1 ++ " (" ++ p.2 ++ ")")) :=
    funext (fun t => by rw [deferredClass_claimSel])
  have hB : duoB (deferredClass s sender (distinctDeferredNames s sender)) =
      (fun t => if (deferredClaimSel s sender t).isSome then none
        else some (deferredRejectMsg s sender t)) :=
    funext (fun t => deferredClass_claimErr s sender t)
  have h1 : (confirmDeferredLoop s sender sel).2.1 =
      (tokensOf sel).filterMap (fun t => (deferredClaimSel s sender t).map
        (fun p => p.1 ++ " (" ++ p.2 ++ ")")) := by
    show (List.foldl (deferredLoopStep sender (distinctDeferredNames s sender))
      (s, [], [], []) (tokensOf sel)).2.1 = _
    rw [h.1, List.nil_append, hA]
  have h2 : (confirmDeferredLoop s sender sel).2.2.1 =
      (tokensOf sel).filterMap (fun t =>
        if (deferredClaimSel s sender t).isSome then none
        else some (deferredRejectMsg s sender t)) := by
    show (List.foldl (deferredLoopStep sender (distinctDeferredNames s sender))
      (s, [], [], []) (tokensOf sel)).2.2.1 = _
    rw [h.2, List.nil_append, hB]
  show ((confirmDeferredLoop s sender sel).2.1, (confirmDeferredLoop s sender sel).2.2.1) = _
  rw [h1, h2]

/-! ## C9 -/

theorem addContact_runOps (st : Store) (sender nm num : String) :
    (addContact st sender nm num).1 = runOps st (addContact st sender nm num).2 := by
  unfold addContact
  cases st.contacts.find? (fun c => c.submitter_number = sender ∧ c.contact_name = nm) with
  | none => rfl
  | some c =>
    dsimp only
    split_ifs <;> rfl

/-- The store threaded through the deferred-confirm token loop is exactly the
result of applying, in order, the recorded pool-level transactions. -/
theorem confirmDeferredLoop_store_join (s0 : Store) (sender : String) (names : List String) :
    ∀ (toks : List String) (st : Store) (succ failed : List String)
      (txns : List (List WriteOp)),
      st = runOps s0 (List.flatten txns) →
      (toks.foldl (deferredLoopStep sender names) (st, succ, failed, txns)).1 =
        runOps s0
          (List.flatten (toks.foldl (deferredLoopStep sender names) (st, succ, failed, txns)).2.2.2) := by
  intro toks
  induction toks with
  | nil => intro st succ failed txns h; exact h
  | cons t ts ih =>
    intro st succ failed txns h
    rw [List.foldl_cons]
    unfold deferredLoopStep
    cases hc : deferredClass st sender names t with
    | a p =>
      rcases p with ⟨nm, num⟩
      dsimp only
      refine ih _ _ _ _ ?_
      rw [List.flatten_append, runOps_append_eq, ← h]
      have h2 := addContact_runOps st sender nm num
      cases hops : (addContact st sender nm num).2 with
      | nil =>
        rw [hops] at h2
        simpa using h2
      | cons w ws =>
        rw [hops] at h2
        simpa using h2
    | b m =>
      dsimp only
      exact ih _ _ _ _ h

/-- A store with one two-number deferred contact awaiting disambiguation. -/
def deferredTxnStore : Store :=
  { users := [⟨"+15551230000", "V"⟩], contacts := [], groups := [], group_members := [],
    pending_actions := [⟨"+15551230000", "deferred_contacts"⟩], pending_deletions := [],
    pending_group_members := [],
    deferred_contacts := [⟨0, "+15551230000", "Ann", "+15550000001", none⟩,
      ⟨1, "+15551230000", "Ann", "+15550000002", none⟩],
    next_contact_id := 0, next_group_id := 0, next_deferred_id := 2 }

/-- **C9 (counterexample).** Resolving the deferred confirm `"1a"` commits
two separate transactions: the `add_contact` insertion runs on the pool
first, and the purge of the deferred rows (with the pending-action clear)
runs in a later transaction — no transaction contains both, so the Contact
insertion is not atomic with the purge, contrary to the claim. -/
theorem c9_counterexample_deferred_not_atomic :
    (confirmDeferred deferredTxnStore "+15551230000" "1a").txns =
      [[WriteOp.insertContact "+15551230000" "Ann" "+15550000001"],
       [WriteOp.deleteDeferredByName "+15551230000" "Ann",
        WriteOp.deletePendingActions "+15551230000"]] ∧
    ¬ ∃ txn ∈ (confirmDeferred deferredTxnStore "+15551230000" "1a").txns,
        WriteOp.insertContact "+15551230000" "Ann" "+15550000001" ∈ txn ∧
        WriteOp.deleteDeferredByName "+15551230000" "Ann" ∈ txn := by
  exact ⟨by decide, by decide⟩

/-- **C9 (amended).** Each transition is grouped as the code commits it, and
each handler's final store is the sequential application of its recorded
transactions: setting a pending action with its candidate rows
(`handle_group`/`handle_delete`) is one transaction; resolving a deletion
confirm (deletes plus pending-action clear) is one transaction; group
creation is one transaction; in the deferred confirm the purge of resolved
deferred rows and the conditional pending-action clear form one transaction,
while each resolved Contact insertion is committed separately on the pool
before it. -/
theorem c9_amended_transaction_grouping (s : Store) (sender : String) :
    (∀ names, handleGroupMatches s sender names ≠ [] →
      (handleGroup s sender names).txns =
        [setPendingActionOps sender "group" ++
          (handleGroupMatches s sender names).map
            (fun c => WriteOp.insertPendingGroupMember sender c.id)] ∧
      (handleGroup s sender names).store =
        runOps s (List.flatten (handleGroup s sender names).txns)) ∧
    (∀ nameArg,
      ¬(deleteGroupsFound s sender nameArg = [] ∧ deleteContactsFound s sender nameArg = []) →
      (handleDelete s sender nameArg).txns =
        [setPendingActionOps sender "deletion" ++
          (deleteGroupsFound s sender nameArg).map
            (fun g => WriteOp.insertPendingDeletion sender (some g.id) none) ++
          (deleteContactsFound s sender nameArg).map
            (fun c => WriteOp.insertPendingDeletion sender none (some c.id))] ∧
      (handleDelete s sender nameArg).store =
        runOps s (List.flatten (handleDelete s sender nameArg).txns)) ∧
    (∀ sel,
      ¬((confirmDeletionParts s sender sel).1 = [] ∧
        (confirmDeletionParts s sender sel).2.1 = [] ∧
        (confirmDeletionParts s sender sel).2.2 = []) →
      (confirmDeletion s sender sel).txns =
        [(confirmDeletionParts s sender sel).1.map (fun g => WriteOp.deleteGroupById g.id) ++
          (confirmDeletionParts s sender sel).2.1.map
            (fun c => WriteOp.deleteContactById c.id) ++
          [WriteOp.deletePendingActions sender]] ∧
      (confirmDeletion s sender sel).store =
        runOps s (List.flatten (confirmDeletion s sender sel).txns)) ∧
    (∀ contacts invalid,
      (createGroup s sender contacts invalid).txns = [createGroupOps s sender contacts] ∧
      (createGroup s sender contacts invalid).store =
        runOps s (List.flatten (createGroup s sender contacts invalid).txns)) ∧
    (∀ sel,
      (confirmDeferred s sender sel).txns =
        (confirmDeferredLoop s sender sel).2.2.2 ++
          [deferredCleanupOps (confirmDeferredLoop s sender sel).1 sender
            (confirmDeferredLoop s sender sel).2.1] ∧
      (confirmDeferred s sender sel).store =
        runOps s (List.flatten (confirmDeferred s sender sel).txns)) := by
  refine ⟨?_, ?_, ?_, ?_, ?_⟩
  · intro names hne
    unfold handleGroup
    dsimp only
    by_cases h1 : (splitChars (fun c => c = ',') names.data).map
        (fun cs => String.mk (trimChars cs)) = []
    · exact absurd (List.map_eq_nil_iff.mp h1)
        (splitChars_ne_nil (fun c => c = ',') names.data)
    · rw [if_neg h1, if_neg hne]
      exact ⟨rfl, by dsimp only; rw [List.flatten]; simp [runOps_append_eq, runOps]⟩
  · intro nameArg hne
    unfold handleDelete
    dsimp only
    rw [if_neg hne]
    exact ⟨rfl, by dsimp only; rw [List.flatten]; simp [runOps_append_eq, runOps]⟩
  · intro sel hne
    unfold confirmDeletion
    dsimp only
    rw [if_neg hne]
    exact ⟨rfl, by dsimp only; rw [List.flatten]; simp [runOps_append_eq, runOps]⟩
  · intro contacts invalid
    exact ⟨rfl, by
      show runOps s (createGroupOps s sender contacts) = _
      rw [show (createGroup s sender contacts invalid).txns =
        [createGroupOps s sender contacts] from rfl]
      rw [List.flatten]
      simp [runOps_append_eq, runOps]⟩
  · intro sel
    refine ⟨rfl, ?_⟩
    show runOps (confirmDeferredLoop s sender sel).1
        (deferredCleanupOps (confirmDeferredLoop s sender sel).1 sender
          (confirmDeferredLoop s sender sel).2.1) = _
    have hloop : (confirmDeferredLoop s sender sel).1 =
        runOps s (List.flatten (confirmDeferredLoop s sender sel).2.2.2) := by
      unfold confirmDeferredLoop
      exact confirmDeferredLoop_store_join s sender (distinctDeferredNames s sender)
        (tokensOf sel) s [] [] [] (by simp [List.flatten, runOps])
    rw [show (confirmDeferred s sender sel).txns =
        (confirmDeferredLoop s sender sel).2.2.2 ++
          [deferredCleanupOps (confirmDeferredLoop s sender sel).1 sender
            (confirmDeferredLoop s sender sel).2.1] from rfl]
    have hj : List.flatten [deferredCleanupOps (confirmDeferredLoop s sender sel).1 sender
        (confirmDeferredLoop s sender sel).2.1] =
        deferredCleanupOps (confirmDeferredLoop s sender sel).1 sender
          (confirmDeferredLoop s sender sel).2.1 := by simp
    rw [List.flatten_append, runOps_append_eq, ← hloop, hj]

theorem c9_amended_transaction_grouping_witness :
    (handleGroup ⟨[⟨"+15551110000", "W"⟩],
        [⟨0, "+15551110000", "John Smith", "+15552223333"⟩], [], [], [], [], [], [], 1, 0, 0⟩
      "+15551110000" "John").txns =
      [[WriteOp.deletePendingActions "+15551110000",
        WriteOp.insertPendingAction "+15551110000" "group",
        WriteOp.insertPendingGroupMember "+15551110000" 0]] ∧
    (confirmDeferred deferredTxnStore "+15551230000" "1a").store =
      runOps deferredTxnStore
        (List.flatten (confirmDeferred deferredTxnStore "+15551230000" "1a").txns) := by
  constructor
  · have h := (c9_amended_transaction_grouping
      ⟨[⟨"+15551110000", "W"⟩], [⟨0, "+15551110000", "John Smith", "+15552223333"⟩],
        [], [], [], [], [], [], 1, 0, 0⟩ "+15551110000").1 "John" (by decide)
    rw [h.1]
    decide
  · exact ((c9_amended_transaction_grouping deferredTxnStore "+15551230000").2.2.2.2
      "1a").2

end Laconic
